import Mathlib

/-!
# KrustyBus network-interface adapters

A shallow embedding of `src/KrustyBus.h` and `src/KrustyBus.cc`: the message
envelope `KrustyBusEvent`, and the two adapter classes `KrustyBusIFace` and
`KrustyBusMemIFace` running against an arbitrary `SST::Interfaces::SimpleNetwork`
transport.

Conventions of the embedding

* The transport is not part of the repository.  It is a parameter: a state type
  `T` with one function per `SimpleNetwork` member the adapters call.  Nothing is
  assumed about its answers.
* `uint8_t`, `uint64_t` are `Nat`, `nid_t` (`int64_t`) and `int` are `Int`; the
  only arithmetic in the adapters is `numDest++` on an `int`, which is wrapped to
  32 bits two's complement.
* `out.fatal` never returns: an operation that reaches it ends in
  `Outcome.fatal`, carrying the adapter state at the moment of the abort.
  Dereferencing a null pointer ends in `Outcome.undefined`.
* `out.verbose` only prints and is left out.
* Every call the adapter makes on the transport, and every invocation of the
  registered callback, is appended to the `calls` trace of the state, with the
  answer the transport gave.  No operation reads the trace.
* The registered callback is code of the owner of the adapter.  It runs inside
  `msgNotify`, and what it does to the adapter there is to call `send`.
-/

namespace KrustyBus

/-! ## Message envelope (`KrustyBus.h`) -/

/-- Enumerator `KBEndpoint::KB_HOST`. -/
def KB_HOST : Nat := 0x01

/-- Enumerator `KBEndpoint::KB_MEM`. -/
def KB_MEM : Nat := 0x02

/-- Enumerator `KBOpcode::KB_UNK`. -/
def KB_UNK : Nat := 0x00

/-- Enumerator `KBOpcode::KB_READ`. -/
def KB_READ : Nat := 0x01

/-- Enumerator `KBOpcode::KB_WRITE`. -/
def KB_WRITE : Nat := 0x02

/-- Enumerator `KBOpcode::KB_FLUSH`. -/
def KB_FLUSH : Nat := 0x03

/-- Enumerator `KBOpcode::KB_FENCE`. -/
def KB_FENCE : Nat := 0x04

/-- The private fields of `class KrustyBusEvent`.  `Opcode`, `Size` and the
endpoint type are `uint8_t`, `Addr` and `Data` are `uint64_t`, `Src` is a `nid_t`
(`int64_t`).  The C++ field `Type` is called `EType` here, `Type` being a Lean
keyword. -/
structure KrustyBusEvent where
  Opcode : Nat
  Size : Nat
  EType : Nat
  Addr : Nat
  Data : Nat
  Src : Int
deriving DecidableEq, Repr

namespace KrustyBusEvent

/-- The values are in the range of their C++ types. -/
def InRange (e : KrustyBusEvent) : Prop :=
  e.Opcode < 2 ^ 8 ∧ e.Size < 2 ^ 8 ∧ e.EType < 2 ^ 8 ∧ e.Addr < 2 ^ 64 ∧ e.Data < 2 ^ 64 ∧
    -(2 ^ 63 : Int) ≤ e.Src ∧ e.Src < 2 ^ 63

/-- Accessor `uint8_t getOpcode()`. -/
def getOpcode (e : KrustyBusEvent) : Nat := e.Opcode

/-- Accessor `uint8_t getSize()`. -/
def getSize (e : KrustyBusEvent) : Nat := e.Size

/-- Accessor `uint64_t getAddr()`. -/
def getAddr (e : KrustyBusEvent) : Nat := e.Addr

/-- Accessor `uint64_t getData()`. -/
def getData (e : KrustyBusEvent) : Nat := e.Data

/-- Accessor `nid_t getSrc()`. -/
def getSrc (e : KrustyBusEvent) : Int := e.Src

/-- Accessor `uint8_t getType()`. -/
def getType (e : KrustyBusEvent) : Nat := e.EType

/-- Mutator `void setSrc(nid_t s)`. -/
def setSrc (e : KrustyBusEvent) (s : Int) : KrustyBusEvent := { e with Src := s }

/-- Mutator `void setType(uint8_t T)`. -/
def setType (e : KrustyBusEvent) (t : Nat) : KrustyBusEvent := { e with EType := t }

end KrustyBusEvent

/-! ## Transport boundary (`SST::Interfaces::SimpleNetwork`) -/

/-- The fields of `SimpleNetwork::Request` the adapters write or read: `dest`,
`src` and the payload pointer (`none` is the null pointer). -/
structure Request where
  dest : Int
  src : Int
  payload : Option KrustyBusEvent
deriving DecidableEq, Repr

/-- The members of `SimpleNetwork` called by the adapters, over a transport state
`T`.  Members that may change the transport return the new state.
`INIT_BROADCAST_ADDR` is the static constant of the same name. -/
structure SimpleNetwork (T : Type) where
  INIT_BROADCAST_ADDR : Int
  init : Nat → T → T
  isNetworkInitialized : T → Bool
  getEndpointID : T → Int
  sendInitData : Request → T → T
  recvInitData : T → Option Request × T
  recv : Int → T → Option Request × T
  spaceToSend : Int → Int → T → Bool × T
  send : Request → Int → T → Bool × T

/-- An `Event::HandlerBase*` that is not null is identified by a number. -/
abbrev HandlerBase := Nat

/-- One entry of the trace: a call on the transport with its answer, or an
invocation of the registered callback. -/
inductive Call where
  | init (phase : Nat)
  | isNetworkInitialized (ans : Bool)
  | sendInitData (req : Request)
  | recvInitData (res : Option Request)
  | recv (vn : Int) (res : Option Request)
  | spaceToSend (vn : Int) (bits : Int) (ans : Bool)
  | send (req : Request) (vn : Int) (ans : Bool)
  | handler (h : HandlerBase) (ev : KrustyBusEvent)
deriving DecidableEq, Repr


/-- The three `out.fatal` call sites of each adapter class: in `setup` (no
callback registered), in `msgNotify` (the delivery has no payload) and in `send`
(the source of the event is `-1`). -/
inductive FatalError where
  | noCallback
  | nullEvent
  | unresolvedSource
deriving DecidableEq, Repr

/-- How an operation ends.  Constructor `ok` is a normal return with the returned
value, `fatal` is `out.fatal` (the run is aborted), `undefined` is a null-pointer
dereference, `fuel` says the loop bound of the model was reached before the loop
ended.  Each carries the adapter state at that moment. -/
inductive Outcome (ρ σ : Type) where
  | ok (r : ρ) (s : σ)
  | fatal (e : FatalError) (s : σ)
  | undefined (s : σ)
  | fuel (s : σ)
deriving DecidableEq, Repr

namespace Outcome

/-- The state carried by an outcome, whatever its kind. -/
def state {ρ σ : Type} : Outcome ρ σ → σ
  | ok _ s => s
  | fatal _ s => s
  | undefined s => s
  | fuel s => s

/-- The operation returned normally. -/
def isOk {ρ σ : Type} : Outcome ρ σ → Bool
  | ok _ _ => true
  | _ => false

/-- The same outcome with the returned value dropped. -/
def void {ρ σ : Type} : Outcome ρ σ → Outcome Unit σ
  | ok _ s => ok () s
  | fatal e s => fatal e s
  | undefined s => undefined s
  | fuel s => fuel s

/-- The same outcome with `r` as the returned value, if it is a normal return. -/
def returning {ρ τ σ : Type} (r : τ) : Outcome ρ σ → Outcome τ σ
  | ok _ s => ok r s
  | fatal e s => fatal e s
  | undefined s => undefined s
  | fuel s => fuel s

end Outcome

/-! ## Adapter state -/

/-- The counter `numDest` is an `int`: the value an `int` holds after `numDest++`,
in 32 bits two's complement.  An `int` cannot hold `2 ^ 31`; the C++ standard
leaves the overflowing increment undefined, and compiled code wraps. -/
def wrapInt32 (x : Int) : Int := (x + 2 ^ 31) % 2 ^ 32 - 2 ^ 31

/-- Assignment `endpointTypes[k] = v` on a `std::map<nid_t,uint8_t>`, kept as a
list of entries in increasing key order: the value of an existing key is
replaced, a new key is inserted at its place. -/
def mapAssign (k : Int) (v : Nat) : List (Int × Nat) → List (Int × Nat)
  | [] => [(k, v)]
  | (k1, v1) :: m =>
    if k = k1 then (k, v) :: m
    else if k < k1 then (k, v) :: (k1, v1) :: m
    else (k1, v1) :: mapAssign k v m

/-- The value a `std::map` holds for a key, if any. -/
def mapFind (k : Int) : List (Int × Nat) → Option Nat
  | [] => none
  | (k1, v1) :: m => if k = k1 then some v1 else mapFind k m

/-- The member fields of `KrustyBusIFace`; `KrustyBusMemIFace` declares the same
fields with the same types.  Field `iFace` is the state of the transport the
adapter owns, `msgHandler = none` is the null pointer, `sendQ` has its front at
the head of the list, `calls` is the trace. -/
structure NicState (T : Type) where
  iFace : T
  msgHandler : Option HandlerBase
  initBroadcastSent : Bool
  numDest : Int
  sendQ : List Request
  endpointTypes : List (Int × Nat)
  calls : List Call
deriving DecidableEq, Repr

/-- The state both constructors leave: `initBroadcastSent = false`,
`numDest = 0`, `msgHandler = nullptr`, empty queue and map, over the loaded
transport. -/
def construct {T : Type} (t : T) : NicState T :=
  { iFace := t, msgHandler := none, initBroadcastSent := false, numDest := 0,
    sendQ := [], endpointTypes := [], calls := [] }

/-- The requests of a trace that the transport accepted in `send`, oldest
first. -/
def handedOver : List Call → List Request
  | [] => []
  | Call.send r _ true :: cs => r :: handedOver cs
  | _ :: cs => handedOver cs

/-- The requests of a trace passed to `sendInitData`, oldest first. -/
def announced : List Call → List Request
  | [] => []
  | Call.sendInitData r :: cs => r :: announced cs
  | _ :: cs => announced cs

/-- The requests of a trace that `recvInitData` returned, oldest first. -/
def drained : List Call → List Request
  | [] => []
  | Call.recvInitData (some r) :: cs => r :: drained cs
  | _ :: cs => drained cs

/-- The events of a trace given to the registered callback, oldest first. -/
def delivered : List Call → List KrustyBusEvent
  | [] => []
  | Call.handler _ ev :: cs => ev :: delivered cs
  | _ :: cs => delivered cs

/-- The number of `send` calls of a trace, accepted or not. -/
def sendCalls : List Call → Nat
  | [] => 0
  | Call.send _ _ _ :: cs => sendCalls cs + 1
  | _ :: cs => sendCalls cs

/-- The number of `recv` calls of a trace. -/
def recvCalls : List Call → Nat
  | [] => 0
  | Call.recv _ _ :: cs => recvCalls cs + 1
  | _ :: cs => recvCalls cs

/-- The transport answered `isNetworkInitialized() = true` somewhere in the
trace. -/
def reportedReady : List Call → Bool
  | [] => false
  | Call.isNetworkInitialized true :: _ => true
  | _ :: cs => reportedReady cs

/-- The calls an adapter can receive from its owner, the scheduler and the
transport.  An `init` carries, besides the phase, the indeterminate contents
`fresh` of the envelope that `new KrustyBusEvent()` allocates (the default
constructor initialises no field).  A `msgNotify` carries, besides the virtual
network, the `send` calls the registered callback makes on the adapter before
it returns, as events and destinations in call order. -/
inductive Op where
  | setMsgHandler (handler : Option HandlerBase)
  | init (phase : Nat) (fresh : KrustyBusEvent)
  | setup
  | send (event : KrustyBusEvent) (destination : Int)
  | clock (cycle : Nat)
  | msgNotify (vn : Int) (sends : List (KrustyBusEvent × Int))
deriving DecidableEq, Repr

/-! ## `KrustyBusIFace` (`KrustyBus.cc`, lines 63-169) -/

namespace KrustyBusIFace

/-- Member `void KrustyBusIFace::setMsgHandler(Event::HandlerBase* handler)`. -/
def setMsgHandler {T : Type} (handler : Option HandlerBase) (s : NicState T) : NicState T :=
  { s with msgHandler := handler }

/-- The first half of `KrustyBusIFace::init`: the phase is forwarded to the
transport, and if the transport is initialised and the broadcast has not been
sent, the flag is set and one request to `INIT_BROADCAST_ADDR` carrying an
envelope of type `KB_HOST` is passed to `sendInitData`. -/
def initBroadcast {T : Type} (net : SimpleNetwork T) (phase : Nat) (fresh : KrustyBusEvent)
    (s : NicState T) : NicState T :=
  let t1 := net.init phase s.iFace
  let ready := net.isNetworkInitialized t1
  let s1 : NicState T :=
    { s with iFace := t1, calls := s.calls ++ [Call.init phase, Call.isNetworkInitialized ready] }
  if ready then
    if !s1.initBroadcastSent then
      let ev := (fresh.setType KB_HOST).setSrc (net.getEndpointID s1.iFace)
      let req : Request :=
        { dest := net.INIT_BROADCAST_ADDR, src := net.getEndpointID s1.iFace, payload := some ev }
      { s1 with initBroadcastSent := true, iFace := net.sendInitData req s1.iFace,
                calls := s1.calls ++ [Call.sendInitData req] }
    else s1
  else s1

/-- The `while` loop of `KrustyBusIFace::init`, with a bound on the number of
`recvInitData` calls.  A request without payload makes `ev->getSrc()` a null
dereference. -/
def initLoop {T : Type} (net : SimpleNetwork T) : Nat → NicState T → Outcome Unit (NicState T)
  | 0, s => Outcome.fuel s
  | fuel + 1, s =>
    match net.recvInitData s.iFace with
    | (none, t) =>
      Outcome.ok () { s with iFace := t, calls := s.calls ++ [Call.recvInitData none] }
    | (some req, t) =>
      match req.payload with
      | none =>
        Outcome.undefined
          { s with iFace := t, calls := s.calls ++ [Call.recvInitData (some req)] }
      | some ev =>
        initLoop net fuel
          { s with iFace := t, calls := s.calls ++ [Call.recvInitData (some req)],
                   endpointTypes := mapAssign ev.getSrc ev.getType s.endpointTypes,
                   numDest := wrapInt32 (s.numDest + 1) }

/-- Member `void KrustyBusIFace::init(unsigned int phase)`. -/
def init {T : Type} (net : SimpleNetwork T) (fuel : Nat) (phase : Nat) (fresh : KrustyBusEvent)
    (s : NicState T) : Outcome Unit (NicState T) :=
  initLoop net fuel (initBroadcast net phase fresh s)

/-- Member `void KrustyBusIFace::setup()`. -/
def setup {T : Type} (s : NicState T) : Outcome Unit (NicState T) :=
  match s.msgHandler with
  | none => Outcome.fatal FatalError.noCallback s
  | some _ => Outcome.ok () s

/-- Member `void KrustyBusIFace::send(KrustyBusEvent* event, int destination)`. -/
def send {T : Type} (net : SimpleNetwork T) (event : KrustyBusEvent) (destination : Int)
    (s : NicState T) : Outcome Unit (NicState T) :=
  if event.getSrc = -1 then Outcome.fatal FatalError.unresolvedSource s
  else
    let req : Request :=
      { dest := destination, src := net.getEndpointID s.iFace, payload := some event }
    Outcome.ok () { s with sendQ := s.sendQ ++ [req] }

/-- Modelled from the spec: the registered callback `(*msgHandler)(ev)` of a
`KrustyBusIFace`.  It is code of the owner of the adapter, which is not in the
repository; by the spec the owner registers a delivery callback, calls `send`,
and is invoked when messages arrive.  What the callback does to the adapter
before it returns is the `send` calls it makes on it, given here as events and
destinations in call order; a `send` that ends in `out.fatal` aborts the run
inside the callback. -/
def callback {T : Type} (net : SimpleNetwork T) :
    List (KrustyBusEvent × Int) → NicState T → Outcome Unit (NicState T)
  | [], s => Outcome.ok () s
  | p :: rest, s =>
    match send net p.1 p.2 s with
    | Outcome.ok _ s1 => callback net rest s1
    | o => o

/-- Member `bool KrustyBusIFace::msgNotify(int vn)` (it precedes `send` in the
source).  The invocation of the callback is recorded in the trace and the
callback runs, with the `send` calls `sends` it makes on the adapter, before
`msgNotify` returns `true`. -/
def msgNotify {T : Type} (net : SimpleNetwork T) (sends : List (KrustyBusEvent × Int))
    (_vn : Int) (s : NicState T) : Outcome Bool (NicState T) :=
  match net.recv 0 s.iFace with
  | (none, t) => Outcome.ok true { s with iFace := t, calls := s.calls ++ [Call.recv 0 none] }
  | (some req, t) =>
    let s1 : NicState T := { s with iFace := t, calls := s.calls ++ [Call.recv 0 (some req)] }
    match req.payload with
    | none => Outcome.fatal FatalError.nullEvent s1
    | some ev =>
      match s1.msgHandler with
      | none => Outcome.undefined s1
      | some h =>
        (callback net sends { s1 with calls := s1.calls ++ [Call.handler h ev] }).returning true

/-- Member `int KrustyBusIFace::getNumDestinations()`. -/
def getNumDestinations {T : Type} (s : NicState T) : Int := s.numDest

/-- Member `nid_t KrustyBusIFace::getAddress()`. -/
def getAddress {T : Type} (net : SimpleNetwork T) (s : NicState T) : Int :=
  net.getEndpointID s.iFace

/-- The `while` loop of `KrustyBusIFace::clock`, on the queue, the transport and
the calls made: `spaceToSend(0,256) && send(front,0)` pops the front and goes
on, anything else breaks.  The `&&` does not call `send` when `spaceToSend`
answered false. -/
def clockLoop {T : Type} (net : SimpleNetwork T) :
    List Request → T → List Request × T × List Call
  | [], t => ([], t, [])
  | r :: q, t =>
    match net.spaceToSend 0 256 t with
    | (false, t1) => (r :: q, t1, [Call.spaceToSend 0 256 false])
    | (true, t1) =>
      match net.send r 0 t1 with
      | (false, t2) => (r :: q, t2, [Call.spaceToSend 0 256 true, Call.send r 0 false])
      | (true, t2) =>
        match clockLoop net q t2 with
        | (q1, t3, cs) => (q1, t3, Call.spaceToSend 0 256 true :: Call.send r 0 true :: cs)

/-- Member `bool KrustyBusIFace::clock(Cycle_t cycle)`. -/
def clock {T : Type} (net : SimpleNetwork T) (_cycle : Nat) (s : NicState T) :
    Outcome Bool (NicState T) :=
  match clockLoop net s.sendQ s.iFace with
  | (q, t, cs) => Outcome.ok false { s with sendQ := q, iFace := t, calls := s.calls ++ cs }

/-- One operation on a `KrustyBusIFace`; `fuel` bounds the loop of `init`. -/
def step {T : Type} (net : SimpleNetwork T) (fuel : Nat) (op : Op) (s : NicState T) :
    Outcome Unit (NicState T) :=
  match op with
  | Op.setMsgHandler h => Outcome.ok () (setMsgHandler h s)
  | Op.init phase fresh => init net fuel phase fresh s
  | Op.setup => setup s
  | Op.send event destination => send net event destination s
  | Op.clock cycle => (clock net cycle s).void
  | Op.msgNotify vn sends => (msgNotify net sends vn s).void

/-- A sequence of operations; it ends at the first one that does not return. -/
def run {T : Type} (net : SimpleNetwork T) (fuel : Nat) :
    List Op → NicState T → Outcome Unit (NicState T)
  | [], s => Outcome.ok () s
  | op :: ops, s =>
    match step net fuel op s with
    | Outcome.ok _ s1 => run net fuel ops s1
    | o => o

end KrustyBusIFace

/-! ## `KrustyBusMemIFace` (`KrustyBus.cc`, lines 218-324) -/

namespace KrustyBusMemIFace

/-- Member `void KrustyBusMemIFace::setMsgHandler(Event::HandlerBase* handler)`. -/
def setMsgHandler {T : Type} (handler : Option HandlerBase) (s : NicState T) : NicState T :=
  { s with msgHandler := handler }

/-- The first half of `KrustyBusMemIFace::init`: the phase is forwarded to the
transport, and if the transport is initialised and the broadcast has not been
sent, the flag is set and one request to `INIT_BROADCAST_ADDR` carrying an
envelope of type `KB_MEM` is passed to `sendInitData`. -/
def initBroadcast {T : Type} (net : SimpleNetwork T) (phase : Nat) (fresh : KrustyBusEvent)
    (s : NicState T) : NicState T :=
  let t1 := net.init phase s.iFace
  let ready := net.isNetworkInitialized t1
  let s1 : NicState T :=
    { s with iFace := t1, calls := s.calls ++ [Call.init phase, Call.isNetworkInitialized ready] }
  if ready then
    if !s1.initBroadcastSent then
      let ev := (fresh.setType KB_MEM).setSrc (net.getEndpointID s1.iFace)
      let req : Request :=
        { dest := net.INIT_BROADCAST_ADDR, src := net.getEndpointID s1.iFace, payload := some ev }
      { s1 with initBroadcastSent := true, iFace := net.sendInitData req s1.iFace,
                calls := s1.calls ++ [Call.sendInitData req] }
    else s1
  else s1

/-- The `while` loop of `KrustyBusMemIFace::init`, with a bound on the number of
`recvInitData` calls.  A request without payload makes `ev->getSrc()` a null
dereference. -/
def initLoop {T : Type} (net : SimpleNetwork T) : Nat → NicState T → Outcome Unit (NicState T)
  | 0, s => Outcome.fuel s
  | fuel + 1, s =>
    match net.recvInitData s.iFace with
    | (none, t) =>
      Outcome.ok () { s with iFace := t, calls := s.calls ++ [Call.recvInitData none] }
    | (some req, t) =>
      match req.payload with
      | none =>
        Outcome.undefined
          { s with iFace := t, calls := s.calls ++ [Call.recvInitData (some req)] }
      | some ev =>
        initLoop net fuel
          { s with iFace := t, calls := s.calls ++ [Call.recvInitData (some req)],
                   endpointTypes := mapAssign ev.getSrc ev.getType s.endpointTypes,
                   numDest := wrapInt32 (s.numDest + 1) }

/-- Member `void KrustyBusMemIFace::init(unsigned int phase)`. -/
def init {T : Type} (net : SimpleNetwork T) (fuel : Nat) (phase : Nat) (fresh : KrustyBusEvent)
    (s : NicState T) : Outcome Unit (NicState T) :=
  initLoop net fuel (initBroadcast net phase fresh s)

/-- Member `void KrustyBusMemIFace::setup()`. -/
def setup {T : Type} (s : NicState T) : Outcome Unit (NicState T) :=
  match s.msgHandler with
  | none => Outcome.fatal FatalError.noCallback s
  | some _ => Outcome.ok () s

/-- Member `void KrustyBusMemIFace::send(KrustyBusEvent* event, int destination)`. -/
def send {T : Type} (net : SimpleNetwork T) (event : KrustyBusEvent) (destination : Int)
    (s : NicState T) : Outcome Unit (NicState T) :=
  if event.getSrc = -1 then Outcome.fatal FatalError.unresolvedSource s
  else
    let req : Request :=
      { dest := destination, src := net.getEndpointID s.iFace, payload := some event }
    Outcome.ok () { s with sendQ := s.sendQ ++ [req] }

/-- Modelled from the spec: the registered callback `(*msgHandler)(ev)` of a
`KrustyBusMemIFace`.  It is code of the owner of the adapter, which is not in the
repository; by the spec the owner registers a delivery callback, calls `send`,
and is invoked when messages arrive.  What the callback does to the adapter
before it returns is the `send` calls it makes on it, given here as events and
destinations in call order; a `send` that ends in `out.fatal` aborts the run
inside the callback. -/
def callback {T : Type} (net : SimpleNetwork T) :
    List (KrustyBusEvent × Int) → NicState T → Outcome Unit (NicState T)
  | [], s => Outcome.ok () s
  | p :: rest, s =>
    match send net p.1 p.2 s with
    | Outcome.ok _ s1 => callback net rest s1
    | o => o

/-- Member `bool KrustyBusMemIFace::msgNotify(int vn)` (it precedes `send` in the
source).  The invocation of the callback is recorded in the trace and the
callback runs, with the `send` calls `sends` it makes on the adapter, before
`msgNotify` returns `true`. -/
def msgNotify {T : Type} (net : SimpleNetwork T) (sends : List (KrustyBusEvent × Int))
    (_vn : Int) (s : NicState T) : Outcome Bool (NicState T) :=
  match net.recv 0 s.iFace with
  | (none, t) => Outcome.ok true { s with iFace := t, calls := s.calls ++ [Call.recv 0 none] }
  | (some req, t) =>
    let s1 : NicState T := { s with iFace := t, calls := s.calls ++ [Call.recv 0 (some req)] }
    match req.payload with
    | none => Outcome.fatal FatalError.nullEvent s1
    | some ev =>
      match s1.msgHandler with
      | none => Outcome.undefined s1
      | some h =>
        (callback net sends { s1 with calls := s1.calls ++ [Call.handler h ev] }).returning true

/-- Member `int KrustyBusMemIFace::getNumDestinations()`. -/
def getNumDestinations {T : Type} (s : NicState T) : Int := s.numDest

/-- Member `nid_t KrustyBusMemIFace::getAddress()`. -/
def getAddress {T : Type} (net : SimpleNetwork T) (s : NicState T) : Int :=
  net.getEndpointID s.iFace

/-- The `while` loop of `KrustyBusMemIFace::clock`, on the queue, the transport and
the calls made: `spaceToSend(0,256) && send(front,0)` pops the front and goes
on, anything else breaks.  The `&&` does not call `send` when `spaceToSend`
answered false. -/
def clockLoop {T : Type} (net : SimpleNetwork T) :
    List Request → T → List Request × T × List Call
  | [], t => ([], t, [])
  | r :: q, t =>
    match net.spaceToSend 0 256 t with
    | (false, t1) => (r :: q, t1, [Call.spaceToSend 0 256 false])
    | (true, t1) =>
      match net.send r 0 t1 with
      | (false, t2) => (r :: q, t2, [Call.spaceToSend 0 256 true, Call.send r 0 false])
      | (true, t2) =>
        match clockLoop net q t2 with
        | (q1, t3, cs) => (q1, t3, Call.spaceToSend 0 256 true :: Call.send r 0 true :: cs)

/-- Member `bool KrustyBusMemIFace::clock(Cycle_t cycle)`. -/
def clock {T : Type} (net : SimpleNetwork T) (_cycle : Nat) (s : NicState T) :
    Outcome Bool (NicState T) :=
  match clockLoop net s.sendQ s.iFace with
  | (q, t, cs) => Outcome.ok false { s with sendQ := q, iFace := t, calls := s.calls ++ cs }

/-- One operation on a `KrustyBusMemIFace`; `fuel` bounds the loop of `init`. -/
def step {T : Type} (net : SimpleNetwork T) (fuel : Nat) (op : Op) (s : NicState T) :
    Outcome Unit (NicState T) :=
  match op with
  | Op.setMsgHandler h => Outcome.ok () (setMsgHandler h s)
  | Op.init phase fresh => init net fuel phase fresh s
  | Op.setup => setup s
  | Op.send event destination => send net event destination s
  | Op.clock cycle => (clock net cycle s).void
  | Op.msgNotify vn sends => (msgNotify net sends vn s).void

/-- A sequence of operations; it ends at the first one that does not return. -/
def run {T : Type} (net : SimpleNetwork T) (fuel : Nat) :
    List Op → NicState T → Outcome Unit (NicState T)
  | [], s => Outcome.ok () s
  | op :: ops, s =>
    match step net fuel op s with
    | Outcome.ok _ s1 => run net fuel ops s1
    | o => o

end KrustyBusMemIFace

/-! ## A scripted transport

A concrete `SimpleNetwork` whose answers are read off lists, used to evaluate the
adapters on explicit inputs. -/

/-- State of the scripted transport: its address, the phase from which it
reports itself initialised, the last phase seen, the pending initialisation and
data requests, the answers still to give to `spaceToSend` and `send`, and what
it was given to broadcast and to send. -/
structure Script where
  id : Int
  readyFrom : Nat
  phase : Nat
  initInbox : List Request
  inbox : List Request
  credit : List Bool
  accept : List Bool
  broadcasts : List Request
  sent : List Request
deriving DecidableEq, Repr

/-- The scripted transport.  Each of `spaceToSend` and `send` consumes one
scripted answer and answers `false` once its list is used up. -/
def scriptNet : SimpleNetwork Script where
  INIT_BROADCAST_ADDR := -1
  init := fun phase t => { t with phase := phase }
  isNetworkInitialized := fun t => decide (t.readyFrom ≤ t.phase)
  getEndpointID := fun t => t.id
  sendInitData := fun req t => { t with broadcasts := t.broadcasts ++ [req] }
  recvInitData := fun t =>
    match t.initInbox with
    | [] => (none, t)
    | r :: rs => (some r, { t with initInbox := rs })
  recv := fun _ t =>
    match t.inbox with
    | [] => (none, t)
    | r :: rs => (some r, { t with inbox := rs })
  spaceToSend := fun _ _ t =>
    match t.credit with
    | [] => (false, t)
    | b :: bs => (b, { t with credit := bs })
  send := fun req _ t =>
    match t.accept with
    | [] => (false, t)
    | b :: bs => (b, { t with accept := bs, sent := if b then t.sent ++ [req] else t.sent })

/-- A scripted transport with address `id` that is initialised from phase
`readyFrom` on and has nothing pending. -/
def idle (id : Int) (readyFrom : Nat) : Script :=
  { id := id, readyFrom := readyFrom, phase := 0, initInbox := [], inbox := [], credit := [],
    accept := [], broadcasts := [], sent := [] }

/-- An envelope with every field zero but the type and the source. -/
def envelope (etype : Nat) (src : Int) : KrustyBusEvent :=
  { Opcode := 0, Size := 0, EType := etype, Addr := 0, Data := 0, Src := src }

/-- The request in which the transport delivers an envelope. -/
def carrying (ev : KrustyBusEvent) : Request :=
  { dest := -1, src := ev.Src, payload := some ev }

/-! ## Serialization (`KrustyBusEvent::serialize_order`)

The serializer of SST core is not part of the repository.  It is modelled as a
byte stream: `ser & x` appends the bytes of `x` when packing and reads `x` back
from the front of the stream when unpacking, one byte for a `uint8_t` and eight
for a `uint64_t` or a `nid_t`, least significant byte first. -/

/-- Modelled from the spec: the serializer of SST core is not in the repository.
These are its two modes in which `serialize_order` moves data. -/
inductive SerMode where
  | PACK
  | UNPACK
deriving DecidableEq, Repr

/-- Modelled from the spec: the serializer of SST core, as its mode and its byte
stream (the bytes written so far when packing, the bytes not yet read when
unpacking). -/
structure serializer where
  mode : SerMode
  buf : List Nat
deriving DecidableEq, Repr

/-- The `w` low bytes of `x`, least significant first. -/
def bytesLE : Nat → Nat → List Nat
  | 0, _ => []
  | w + 1, x => x % 256 :: bytesLE w (x / 256)

/-- The number whose bytes, least significant first, are given. -/
def ofBytesLE : List Nat → Nat
  | [] => 0
  | b :: bs => b + 256 * ofBytesLE bs

/-- Modelled from the spec: operator `ser & x` of the SST serializer for an
unsigned `x` of `w` bytes (opcode and size are 1 byte, address and data 8), as
the serializer after it and the value `x` has after it.  Unpacking from a
stream that is too short fails. -/
def serUInt (w : Nat) (ser : serializer) (x : Nat) : Option (serializer × Nat) :=
  match ser.mode with
  | SerMode.PACK => some ({ ser with buf := ser.buf ++ bytesLE w x }, x)
  | SerMode.UNPACK =>
    if w ≤ ser.buf.length then
      some ({ ser with buf := ser.buf.drop w }, ofBytesLE (ser.buf.take w))
    else none

/-- Modelled from the spec: operator `ser & x` of the SST serializer for a `nid_t`
(`int64_t`, 8 bytes), in two's complement. -/
def serInt64 (ser : serializer) (x : Int) : Option (serializer × Int) :=
  match ser.mode with
  | SerMode.PACK => some ({ ser with buf := ser.buf ++ bytesLE 8 (x % 2 ^ 64).toNat }, x)
  | SerMode.UNPACK =>
    if 8 ≤ ser.buf.length then
      let n := ofBytesLE (ser.buf.take 8)
      some ({ ser with buf := ser.buf.drop 8 }, if n < 2 ^ 63 then (n : Int) else (n : Int) - 2 ^ 64)
    else none

/-- Modelled from the spec: the call `Event::serialize_order(ser)` of the SST base
class, whose fields the embedding does not track.  The bytes it writes for
this event when packing are the parameter `base`, and it reads back as many
when unpacking. -/
def Event.serialize_order (base : List Nat) (ser : serializer) : Option serializer :=
  match ser.mode with
  | SerMode.PACK => some { ser with buf := ser.buf ++ base }
  | SerMode.UNPACK =>
    if base.length ≤ ser.buf.length then some { ser with buf := ser.buf.drop base.length }
    else none

/-- Member `void KrustyBusEvent::serialize_order(serializer &ser)`: the base
class, then `ser & Opcode; ser & Size; ser & Addr; ser & Data; ser & Src;`.  The
endpoint type is not passed to the serializer. -/
def KrustyBusEvent.serialize_order (base : List Nat) (ser : serializer) (e : KrustyBusEvent) :
    Option (serializer × KrustyBusEvent) :=
  match Event.serialize_order base ser with
  | none => none
  | some ser0 =>
    match serUInt 1 ser0 e.Opcode with
    | none => none
    | some (ser1, opc) =>
      match serUInt 1 ser1 e.Size with
      | none => none
      | some (ser2, sz) =>
        match serUInt 8 ser2 e.Addr with
        | none => none
        | some (ser3, addr) =>
          match serUInt 8 ser3 e.Data with
          | none => none
          | some (ser4, data) =>
            match serInt64 ser4 e.Src with
            | none => none
            | some (ser5, src) =>
              some (ser5, { e with Opcode := opc, Size := sz, Addr := addr, Data := data,
                                   Src := src })

/-- The serialized form of an envelope: the stream after `serialize_order` in
`PACK` mode on an empty stream. -/
def serialize (base : List Nat) (e : KrustyBusEvent) : Option (List Nat) :=
  (KrustyBusEvent.serialize_order base { mode := SerMode.PACK, buf := [] } e).map
    (fun p => p.1.buf)

/-- Deserialization: `serialize_order` in `UNPACK` mode on the stream, applied to
a default-constructed envelope, whose indeterminate contents are `blank`. -/
def deserialize (base : List Nat) (bytes : List Nat) (blank : KrustyBusEvent) :
    Option KrustyBusEvent :=
  (KrustyBusEvent.serialize_order base { mode := SerMode.UNPACK, buf := bytes } blank).map
    (fun p => p.2)

/-! ## Definitions that follow the words of the specification -/

/-- Specification of one tick on a queue: starting with transport state `t`, the
requests `handed` are given to the transport and `rest` stays queued, leaving
the transport in `t1`.  A request is handed over when the transport answers that
it has credit and then accepts it; the drain stops at the end of the queue, or
at the first request for which the transport has no credit or which it
refuses. -/
inductive DrainSpec {T : Type} (net : SimpleNetwork T) :
    T → List Request → List Request → List Request → T → Prop where
  | emptied (t : T) : DrainSpec net t [] [] [] t
  | noCredit (t : T) (r : Request) (q : List Request)
      (h : (net.spaceToSend 0 256 t).1 = false) :
      DrainSpec net t (r :: q) [] (r :: q) (net.spaceToSend 0 256 t).2
  | refused (t : T) (r : Request) (q : List Request)
      (h : (net.spaceToSend 0 256 t).1 = true)
      (h1 : (net.send r 0 (net.spaceToSend 0 256 t).2).1 = false) :
      DrainSpec net t (r :: q) [] (r :: q) (net.send r 0 (net.spaceToSend 0 256 t).2).2
  | accepted (t : T) (r : Request) (q handed rest : List Request) (t1 : T)
      (h : (net.spaceToSend 0 256 t).1 = true)
      (h1 : (net.send r 0 (net.spaceToSend 0 256 t).2).1 = true)
      (h2 : DrainSpec net (net.send r 0 (net.spaceToSend 0 256 t).2).2 q handed rest t1) :
      DrainSpec net t (r :: q) (r :: handed) rest t1

/-- The initialisation messages `reqs` are pending at the transport in state `t`:
`recvInitData` returns them one after the other and then the null pointer,
leaving the transport in `t1`. -/
inductive PendingInit {T : Type} (net : SimpleNetwork T) : T → List Request → T → Prop where
  | none (t : T) (h : (net.recvInitData t).1 = Option.none) :
      PendingInit net t [] (net.recvInitData t).2
  | some (t : T) (r : Request) (rs : List Request) (t1 : T)
      (h : (net.recvInitData t).1 = Option.some r)
      (h1 : PendingInit net (net.recvInitData t).2 rs t1) :
      PendingInit net t (r :: rs) t1

/-- The Discovery Table after the announcements `ms` are recorded in arrival
order: each records `source -> endpoint type`. -/
def recordAll (ms : List KrustyBusEvent) (table : List (Int × Nat)) : List (Int × Nat) :=
  ms.foldl (fun m ev => mapAssign ev.getSrc ev.getType m) table

/-- The source addresses of the announcements drained in a trace. -/
def drainedSrcs (cs : List Call) : List Int :=
  (drained cs).filterMap (fun r => r.payload.map KrustyBusEvent.getSrc)

/-- The events and destinations passed to `send` in a sequence of operations, in
call order. -/
def sentBy : List Op → List (Option KrustyBusEvent × Int)
  | [] => []
  | Op.send event destination :: ops => (some event, destination) :: sentBy ops
  | _ :: ops => sentBy ops

/-- A sequence of operations made of `send` calls with a resolved source and of
clock ticks only. -/
def SendsAndTicks : List Op → Prop
  | [] => True
  | Op.send event _ :: ops => event.getSrc ≠ -1 ∧ SendsAndTicks ops
  | Op.clock _ :: ops => SendsAndTicks ops
  | _ :: _ => False

/-- A sequence of `init` invocations, one for each pair of a phase number and of
the contents of the freshly allocated envelope. -/
def initOps (phases : List (Nat × KrustyBusEvent)) : List Op :=
  phases.map (fun p => Op.init p.1 p.2)

/-- The contract of one clock tick, for a function `clock` of an adapter class:
the tick returns `false` without error, some `n` requests from the front of the
queue, no more than the queue holds, were handed to the transport in order and
are no longer queued, the other `sendQ.length - n` stay queued in order, `send`
was called at most `sendQ.length` times, the transport answers are those of
`DrainSpec`, and no other field of the adapter changes. -/
def TickContract {T : Type} (net : SimpleNetwork T)
    (clock : Nat → NicState T → Outcome Bool (NicState T)) : Prop :=
  ∀ (cycle : Nat) (s : NicState T), ∃ (n : Nat) (t1 : T) (cs : List Call),
    n ≤ s.sendQ.length ∧
    clock cycle s =
      Outcome.ok false { s with sendQ := s.sendQ.drop n, iFace := t1, calls := s.calls ++ cs } ∧
    handedOver cs = s.sendQ.take n ∧
    sendCalls cs ≤ s.sendQ.length ∧
    DrainSpec net s.iFace s.sendQ (s.sendQ.take n) (s.sendQ.drop n) t1

/-! ## The two classes over one parameter

`KrustyBusIFace` and `KrustyBusMemIFace` are embedded separately above.  To prove
a fact about both, the definitions below take the announced endpoint type as a
parameter; `KrustyBusIFace.run = runAs KB_HOST` and
`KrustyBusMemIFace.run = runAs KB_MEM` are proved, not assumed. -/

/-- The first half of `init` with the announced endpoint type `tag`. -/
def announceAs {T : Type} (tag : Nat) (net : SimpleNetwork T) (phase : Nat)
    (fresh : KrustyBusEvent) (s : NicState T) : NicState T :=
  let t1 := net.init phase s.iFace
  let ready := net.isNetworkInitialized t1
  let s1 : NicState T :=
    { s with iFace := t1, calls := s.calls ++ [Call.init phase, Call.isNetworkInitialized ready] }
  if ready then
    if !s1.initBroadcastSent then
      let ev := (fresh.setType tag).setSrc (net.getEndpointID s1.iFace)
      let req : Request :=
        { dest := net.INIT_BROADCAST_ADDR, src := net.getEndpointID s1.iFace, payload := some ev }
      { s1 with initBroadcastSent := true, iFace := net.sendInitData req s1.iFace,
                calls := s1.calls ++ [Call.sendInitData req] }
    else s1
  else s1

/-- One operation with the announced endpoint type `tag`. -/
def stepAs {T : Type} (tag : Nat) (net : SimpleNetwork T) (fuel : Nat) (op : Op)
    (s : NicState T) : Outcome Unit (NicState T) :=
  match op with
  | Op.setMsgHandler h => Outcome.ok () (KrustyBusIFace.setMsgHandler h s)
  | Op.init phase fresh => KrustyBusIFace.initLoop net fuel (announceAs tag net phase fresh s)
  | Op.setup => KrustyBusIFace.setup s
  | Op.send event destination => KrustyBusIFace.send net event destination s
  | Op.clock cycle => (KrustyBusIFace.clock net cycle s).void
  | Op.msgNotify vn sends => (KrustyBusIFace.msgNotify net sends vn s).void

/-- A sequence of operations with the announced endpoint type `tag`. -/
def runAs {T : Type} (tag : Nat) (net : SimpleNetwork T) (fuel : Nat) :
    List Op → NicState T → Outcome Unit (NicState T)
  | [], s => Outcome.ok () s
  | op :: ops, s =>
    match stepAs tag net fuel op s with
    | Outcome.ok _ s1 => runAs tag net fuel ops s1
    | o => o

/-- The contract of `send` for an adapter class with members `getAddress` and
`send`: on an event whose source is `-1` it ends in the fatal error of `send`
with the state as it was, on any other event it returns with exactly one
request appended to the tail of the queue, carrying the event, the destination
and the adapter's own transport address, and no other field changed. -/
def SendContract {T : Type} (getAddress : NicState T → Int)
    (send : KrustyBusEvent → Int → NicState T → Outcome Unit (NicState T)) : Prop :=
  ∀ (event : KrustyBusEvent) (destination : Int) (s : NicState T),
    ((∃ e s1, send event destination s = Outcome.fatal e s1) ↔ event.getSrc = -1) ∧
    (event.getSrc = -1 →
      send event destination s = Outcome.fatal FatalError.unresolvedSource s ∧
      (send event destination s).state.sendQ = s.sendQ) ∧
    (event.getSrc ≠ -1 →
      send event destination s =
        Outcome.ok ()
          { s with sendQ := s.sendQ ++
              [{ dest := destination, src := getAddress s, payload := some event }] })

/-- The order property after a run `o` of the operations `ops` from state `s`:
the run returned, it only added to the trace, and the requests handed to the
transport during the run followed by the requests still queued are the
requests queued before followed by the events passed to `send`, with their
destinations, in call order. -/
def FifoAfter {T : Type} (ops : List Op) (s : NicState T) (o : Outcome Unit (NicState T)) :
    Prop :=
  ∃ (s1 : NicState T) (cs : List Call),
    o = Outcome.ok () s1 ∧ s1.calls = s.calls ++ cs ∧
    (handedOver cs ++ s1.sendQ).map (fun r => (r.payload, r.dest)) =
      s.sendQ.map (fun r => (r.payload, r.dest)) ++ sentBy ops

/-! ## Contracts of the operations, invariants, and concrete inputs -/

/-- An adapter over a scripted transport with address 5 that has credit for the
first and third request it is asked about and accepts what it is offered. -/
def sampleNic : NicState Script :=
  construct { idle 5 0 with credit := [true, false, true, true], accept := [true, true, true] }

/-- Three `send` calls and two ticks, interleaved. -/
def sampleTraffic : List Op :=
  [Op.send (envelope KB_HOST 5) 9, Op.send { envelope KB_HOST 5 with Opcode := KB_READ } 9,
   Op.clock 0, Op.send { envelope KB_HOST 5 with Opcode := KB_WRITE } 8, Op.clock 1]

/-- The announcement property of a state reached by `init` invocations, read off
its trace: at most one request was passed to `sendInitData`; exactly one was
if and only if the transport answered `isNetworkInitialized() = true` at some
point; in that case it was passed right after the first such answer, and
nowhere else; and the flag `initBroadcastSent` is set if and only if the
transport has answered so. -/
def AnnouncedOnce {T : Type} (s : NicState T) : Prop :=
  (announced s.calls).length ≤ 1 ∧
  ((announced s.calls).length = 1 ↔ reportedReady s.calls = true) ∧
  (reportedReady s.calls = true →
    ∃ (pre : List Call) (req : Request) (post : List Call),
      s.calls = pre ++ Call.isNetworkInitialized true :: Call.sendInitData req :: post ∧
      reportedReady pre = false ∧ announced pre = [] ∧ announced post = []) ∧
  (s.initBroadcastSent = true ↔ reportedReady s.calls = true)

/-- The broadcast flag never goes back: whatever operations run from a state in
which `initBroadcastSent` is set, it is set in the state they end in. -/
def FlagStays {T : Type} (run : List Op → NicState T → Outcome Unit (NicState T)) : Prop :=
  ∀ (ops : List Op) (s : NicState T),
    s.initBroadcastSent = true → (run ops s).state.initBroadcastSent = true

/-- The invariant behind `AnnouncedOnce`: either the transport has not answered
that it is initialised, the flag is clear and nothing was announced, or it has,
the flag is set and the one announcement directly follows the first such
answer. -/
def AnnounceInv {T : Type} (s : NicState T) : Prop :=
  (reportedReady s.calls = false ∧ s.initBroadcastSent = false ∧ announced s.calls = []) ∨
  (reportedReady s.calls = true ∧ s.initBroadcastSent = true ∧
    ∃ (pre : List Call) (req : Request) (post : List Call),
      s.calls = pre ++ Call.isNetworkInitialized true :: Call.sendInitData req :: post ∧
      reportedReady pre = false ∧ announced pre = [] ∧ announced post = [])

/-- The counter after `k` executions of `numDest++`. -/
def countUp : Nat → Int → Int
  | 0, n => n
  | k + 1, n => countUp k (wrapInt32 (n + 1))

/-- What one `init` invocation does with pending initialisation messages, as the
claim words it: the invocation returns, `recvInitData` was called once for each
request of `reqs` and once more to learn that nothing is left, the transport is
left in `t1`, the Discovery Table is the old one with the announcements `ms`
recorded in arrival order, and the peer counter is the old one plus the number
of announcements. -/
def DrainsAll {T : Type} (before : NicState T) (o : Outcome Unit (NicState T))
    (s : NicState T) (ms : List KrustyBusEvent) (reqs : List Request) (t1 : T) : Prop :=
  ∃ s1 : NicState T, o = Outcome.ok () s1 ∧ s1.iFace = t1 ∧
    s1.calls = before.calls ++ reqs.map (fun r => Call.recvInitData (some r)) ++
      [Call.recvInitData none] ∧
    s1.endpointTypes = recordAll ms s.endpointTypes ∧
    s1.numDest = s.numDest + ms.length ∧
    s1.sendQ = s.sendQ ∧ s1.msgHandler = s.msgHandler

/-- The contract of the drain of `init` for an adapter class, with `initBroadcast`
its first half: whenever the requests `reqs`, carrying the announcements `ms`,
are pending at the transport when the drain starts, and the `int` counter
holds a value of its type that stays below `2 ^ 31` when `ms.length` is added,
one invocation with enough fuel for the `ms.length + 1` calls of `recvInitData`
drains them all. -/
def DrainContract {T : Type} (net : SimpleNetwork T)
    (initBroadcast : Nat → KrustyBusEvent → NicState T → NicState T)
    (init : Nat → Nat → KrustyBusEvent → NicState T → Outcome Unit (NicState T)) : Prop :=
  ∀ (phase : Nat) (fresh : KrustyBusEvent) (s : NicState T) (ms : List KrustyBusEvent)
    (reqs : List Request) (t1 : T) (fuel : Nat),
    PendingInit net (initBroadcast phase fresh s).iFace reqs t1 →
    reqs.map Request.payload = ms.map some →
    -(2 ^ 31 : Int) ≤ s.numDest → s.numDest + ms.length < 2 ^ 31 →
    ms.length < fuel →
    DrainsAll (initBroadcast phase fresh s) (init fuel phase fresh s) s ms reqs t1

/-- An adapter whose peer counter holds the largest `int`, with one announcement
pending at its transport. -/
def fullCounterNic : NicState Script :=
  { construct { idle 5 1 with initInbox := [carrying (envelope KB_MEM 7)] } with
    numDest := 2147483647 }

/-- A freshly constructed adapter with the announcements of a memory endpoint at
address 7 and of a host at address 3 pending at its transport. -/
def twoPeersNic : NicState Script :=
  construct { idle 5 0 with
    initInbox := [carrying (envelope KB_MEM 7), carrying (envelope KB_HOST 3)] }

/-- The invariant that ties the peer counter and the Discovery Table to the
announcements drained so far: the counter was incremented once for each, the
keys of the table are in strictly increasing order, and they are the source
addresses of the drained announcements. -/
def TableInv {T : Type} (s : NicState T) : Prop :=
  s.numDest = countUp (drainedSrcs s.calls).length 0 ∧
  (s.endpointTypes.map Prod.fst).Pairwise (fun a b => a < b) ∧
  ∀ k : Int, k ∈ s.endpointTypes.map Prod.fst ↔ k ∈ drainedSrcs s.calls

/-- What `getNumDestinations()` counts in a state `s`: the Discovery Table has one
entry for each distinct source address among the announcements drained so
far, so no more entries than announcements; as long as fewer than `2 ^ 31`
announcements were drained, `getNumDestinations()` is their number, and it is
the number of entries of the table if and only if their source addresses are
pairwise distinct. -/
def CountsAnnouncements {T : Type} (getNumDestinations : NicState T → Int)
    (s : NicState T) : Prop :=
  s.endpointTypes.length = (drainedSrcs s.calls).dedup.length ∧
  s.endpointTypes.length ≤ (drainedSrcs s.calls).length ∧
  ((drainedSrcs s.calls).length < 2 ^ 31 →
    getNumDestinations s = (drainedSrcs s.calls).length) ∧
  ((drainedSrcs s.calls).length < 2 ^ 31 →
    (getNumDestinations s = s.endpointTypes.length ↔ (drainedSrcs s.calls).Nodup))

/-- A freshly constructed adapter at whose transport two announcements from the
same address 7 are pending. -/
def repeatedPeerNic : NicState Script :=
  construct { idle 5 0 with
    initInbox := [carrying (envelope KB_MEM 7), carrying (envelope KB_MEM 7)] }

/-- The request `send` queues for an event and a destination when the transport
reports the address `id`. -/
def queued (id : Int) (p : KrustyBusEvent × Int) : Request :=
  { dest := p.2, src := id, payload := some p.1 }

/-- Claim C7 as the specification words it, for the member `msgNotify` of an
adapter class: in a state with a registered callback, whatever the callback
does, a notification that does not end in a fatal error returns `true` and
leaves the outbound queue, the Discovery Table and the peer counter
unchanged. -/
def NotifyLeavesQueue {T : Type}
    (msgNotify : List (KrustyBusEvent × Int) → Int → NicState T → Outcome Bool (NicState T)) :
    Prop :=
  ∀ (sends : List (KrustyBusEvent × Int)) (vn : Int) (s : NicState T) (h : HandlerBase),
    s.msgHandler = some h →
    (∀ e s1, msgNotify sends vn s ≠ Outcome.fatal e s1) →
    ∃ s1, msgNotify sends vn s = Outcome.ok true s1 ∧ s1.sendQ = s.sendQ ∧
      s1.endpointTypes = s.endpointTypes ∧ s1.numDest = s.numDest

/-- The contract of a receive notification for an adapter class, in a state with
the callback `h` registered, where `sends` are the `send` calls the callback
makes on the adapter while it runs: `recv(0)` is called once; a delivery
without payload ends in the fatal error of `msgNotify` and the callback is not
invoked; a delivery with payload `ev` invokes the callback exactly once, with
`ev`, and when every `send` of the callback has a resolved source the
notification returns `true` with the requests of these sends appended to the
queue; with nothing pending it returns `true` and invokes nothing.  However it
ends, the Discovery Table and the peer counter are unchanged, the queue is the
old queue followed by the requests of the first `n` sends of the callback, for
some `n`, so unchanged when the callback sends nothing, and a fatal error is
either the one of `msgNotify`, for a delivery without payload, or the one of a
`send` made by the callback. -/
def NotifyContract {T : Type} (net : SimpleNetwork T)
    (msgNotify : List (KrustyBusEvent × Int) → Int → NicState T → Outcome Bool (NicState T)) :
    Prop :=
  ∀ (sends : List (KrustyBusEvent × Int)) (vn : Int) (s : NicState T) (h : HandlerBase),
    s.msgHandler = some h →
    (∀ req : Request, (net.recv 0 s.iFace).1 = some req → req.payload = none →
      msgNotify sends vn s =
        Outcome.fatal FatalError.nullEvent
          { s with iFace := (net.recv 0 s.iFace).2,
                   calls := s.calls ++ [Call.recv 0 (some req)] }) ∧
    (∀ (req : Request) (ev : KrustyBusEvent),
      (net.recv 0 s.iFace).1 = some req → req.payload = some ev →
      (∃ q, (msgNotify sends vn s).state =
          { s with iFace := (net.recv 0 s.iFace).2,
                   calls := s.calls ++ [Call.recv 0 (some req), Call.handler h ev],
                   sendQ := q }) ∧
      ((∀ p ∈ sends, p.1.getSrc ≠ -1) →
        msgNotify sends vn s =
          Outcome.ok true
            { s with iFace := (net.recv 0 s.iFace).2,
                     calls := s.calls ++ [Call.recv 0 (some req), Call.handler h ev],
                     sendQ := s.sendQ ++
                       sends.map (queued (net.getEndpointID (net.recv 0 s.iFace).2)) })) ∧
    ((net.recv 0 s.iFace).1 = none →
      msgNotify sends vn s =
        Outcome.ok true
          { s with iFace := (net.recv 0 s.iFace).2, calls := s.calls ++ [Call.recv 0 none] }) ∧
    (∃ cs : List Call, (msgNotify sends vn s).state.calls = s.calls ++ cs ∧ recvCalls cs = 1 ∧
      (delivered cs).length ≤ 1) ∧
    ((msgNotify sends vn s).state.endpointTypes = s.endpointTypes ∧
      (msgNotify sends vn s).state.numDest = s.numDest ∧
      ∃ n, n ≤ sends.length ∧
        (msgNotify sends vn s).state.sendQ =
          s.sendQ ++ (sends.take n).map (queued (net.getEndpointID (net.recv 0 s.iFace).2))) ∧
    (sends = [] → (msgNotify sends vn s).state.sendQ = s.sendQ) ∧
    (∀ e s1, msgNotify sends vn s = Outcome.fatal e s1 →
      (e = FatalError.nullEvent ∧ ∃ req, (net.recv 0 s.iFace).1 = some req ∧
        req.payload = none) ∨
      (e = FatalError.unresolvedSource ∧ ∃ p ∈ sends, p.1.getSrc = -1))

/-- The contract of `setup` for an adapter class with members `setMsgHandler` and
`setup` and one-operation function `step`: `setup` ends in a fatal error if
and only if `msgHandler` is null, the error is the one of `setup`, and the
state is as it was whether it returns or not; the handler is null after
construction, `setMsgHandler` stores its argument and changes nothing else,
and no other operation changes the handler. -/
def SetupContract {T : Type} (setMsgHandler : Option HandlerBase → NicState T → NicState T)
    (setup : NicState T → Outcome Unit (NicState T))
    (step : Op → NicState T → Outcome Unit (NicState T)) : Prop :=
  (∀ s : NicState T,
    ((∃ e s1, setup s = Outcome.fatal e s1) ↔ s.msgHandler = none) ∧
    (s.msgHandler = none → setup s = Outcome.fatal FatalError.noCallback s) ∧
    (s.msgHandler ≠ none → setup s = Outcome.ok () s) ∧
    (setup s).state = s) ∧
  (∀ t : T, setup (construct t) = Outcome.fatal FatalError.noCallback (construct t)) ∧
  (∀ (h : Option HandlerBase) (s : NicState T),
    setMsgHandler h s = { s with msgHandler := h }) ∧
  (∀ (op : Op) (s : NicState T), (∀ h, op ≠ Op.setMsgHandler h) →
    (step op s).state.msgHandler = s.msgHandler)

/-- Claim C10 as the specification words it, for an adapter class with members
`getAddress` and `send`: if the adapter's own address is `-1`, `send` ends in
its fatal error, and if it is not, `send` returns and has queued the event. -/
def GatedOnOwnAddress {T : Type} (getAddress : NicState T → Int)
    (send : KrustyBusEvent → Int → NicState T → Outcome Unit (NicState T))
    (event : KrustyBusEvent) (destination : Int) (s : NicState T) : Prop :=
  (getAddress s = -1 →
    ∃ s1, send event destination s = Outcome.fatal FatalError.unresolvedSource s1) ∧
  (getAddress s ≠ -1 →
    ∃ s1, send event destination s = Outcome.ok () s1 ∧
      s1.sendQ = s.sendQ ++ [{ dest := destination, src := getAddress s, payload := some event }])

/-- An adapter with the callback 1 registered, at whose transport one request
carrying a read from address 3 is pending. -/
def listeningNic : NicState Script :=
  { construct { idle 5 0 with inbox := [carrying { envelope KB_HOST 3 with Opcode := KB_READ }] }
    with msgHandler := some 1 }

/-- The envelope of the round-trip example of the specification: a write of 8
bytes of `0xDEADBEEF` to address `0x1000`, sent from address 3. -/
def sampleWrite : KrustyBusEvent :=
  { Opcode := KB_WRITE, Size := 8, EType := KB_HOST, Addr := 0x1000, Data := 0xDEADBEEF, Src := 3 }

/-- The serialized form the field order of `serialize_order` gives: the bytes of
the base class, then opcode, size, address, data and source address. -/
def wireFormat (base : List Nat) (e : KrustyBusEvent) : List Nat :=
  base ++ (bytesLE 1 e.Opcode ++ (bytesLE 1 e.Size ++ (bytesLE 8 e.Addr ++
    (bytesLE 8 e.Data ++ bytesLE 8 (e.Src % 2 ^ 64).toNat))))

/-! ## Definitions for the Discovery Table over one operation -/

/-- The calls an operation added to the trace, given the state before it and the
state after it. -/
def newCalls {T : Type} (s s1 : NicState T) : List Call := s1.calls.drop s.calls.length

/-- The announcements (envelopes) of the requests that `recvInitData` returned in
a trace, oldest first. -/
def drainedEvents (cs : List Call) : List KrustyBusEvent :=
  (drained cs).filterMap Request.payload

/-- The entry of one address `a` after the announcements `ms` are recorded in
arrival order, starting from the entry `entry`: every announcement whose source
is `a` sets the entry to its endpoint type. -/
def entryAfter (a : Int) (ms : List KrustyBusEvent) (entry : Option Nat) : Option Nat :=
  ms.foldl (fun acc ev => if ev.getSrc = a then some ev.getType else acc) entry

/-- Claim C11 as the specification words it, for the one-operation function
`step` of an adapter class: whatever the operation, an address the Discovery
Table maps to an endpoint type before it is mapped to the same type after
it. -/
def AppendOnly {T : Type} (step : Op → NicState T → Outcome Unit (NicState T)) : Prop :=
  ∀ (op : Op) (s : NicState T) (a : Int) (t : Nat),
    mapFind a s.endpointTypes = some t → mapFind a (step op s).state.endpointTypes = some t

/-- What the operations do to the Discovery Table, for the one-operation function
`step` of an adapter class.  For an address `a` the table maps to `t` before
an operation: `a` is still mapped after it; it is mapped to `t` again if every
announcement from `a` drained by the operation carries the type `t`, and in
general to the type of the last announcement from `a` the operation drained,
or to `t` if it drained none.  An operation other than `init` leaves the table
as it is. -/
def TableKept {T : Type} (step : Op → NicState T → Outcome Unit (NicState T)) : Prop :=
  ∀ (op : Op) (s : NicState T),
    ((∀ phase fresh, op ≠ Op.init phase fresh) →
      (step op s).state.endpointTypes = s.endpointTypes) ∧
    ∀ (a : Int) (t : Nat), mapFind a s.endpointTypes = some t →
      (∃ t1, mapFind a (step op s).state.endpointTypes = some t1) ∧
      ((∀ ev ∈ drainedEvents (newCalls s (step op s).state), ev.getSrc = a → ev.getType = t) →
        mapFind a (step op s).state.endpointTypes = some t) ∧
      mapFind a (step op s).state.endpointTypes =
        entryAfter a (drainedEvents (newCalls s (step op s).state)) (some t)

/-- An adapter that has the memory endpoint at address 7 in its Discovery Table,
with an announcement from address 7 of type host pending at its transport. -/
def knownPeerNic : NicState Script :=
  { construct { idle 5 0 with initInbox := [carrying (envelope KB_HOST 7)] } with
    endpointTypes := [(7, KB_MEM)], numDest := 1 }

/-! ## Definitions for the comparison of the two classes -/

/-- A call of the trace with the endpoint type of an announced envelope blanked:
the payload of a request passed to `sendInitData` gets the type 0, every other
call is left as it is. -/
def eraseType : Call → Call
  | Call.sendInitData r =>
    Call.sendInitData { r with payload := r.payload.map (fun ev => ev.setType 0) }
  | c => c

/-- The transport gives the same answers whichever endpoint type it is given to
broadcast: `R` relates the transport states of two runs, related states answer
every call alike and every call leads to related states again, `sendInitData`
included when the two requests differ in nothing but the endpoint type of
their envelope. -/
structure SameAnswers {T : Type} (net : SimpleNetwork T) (R : T → T → Prop) : Prop where
  init : ∀ (phase : Nat) (t1 t2 : T), R t1 t2 → R (net.init phase t1) (net.init phase t2)
  isNetworkInitialized : ∀ (t1 t2 : T), R t1 t2 →
    net.isNetworkInitialized t1 = net.isNetworkInitialized t2
  getEndpointID : ∀ (t1 t2 : T), R t1 t2 → net.getEndpointID t1 = net.getEndpointID t2
  sendInitData : ∀ (r1 r2 : Request) (t1 t2 : T), R t1 t2 → r1.dest = r2.dest →
    r1.src = r2.src →
    r1.payload.map (fun ev => ev.setType 0) = r2.payload.map (fun ev => ev.setType 0) →
    R (net.sendInitData r1 t1) (net.sendInitData r2 t2)
  recvInitData : ∀ (t1 t2 : T), R t1 t2 →
    (net.recvInitData t1).1 = (net.recvInitData t2).1 ∧
      R (net.recvInitData t1).2 (net.recvInitData t2).2
  recv : ∀ (vn : Int) (t1 t2 : T), R t1 t2 →
    (net.recv vn t1).1 = (net.recv vn t2).1 ∧ R (net.recv vn t1).2 (net.recv vn t2).2
  spaceToSend : ∀ (vn bits : Int) (t1 t2 : T), R t1 t2 →
    (net.spaceToSend vn bits t1).1 = (net.spaceToSend vn bits t2).1 ∧
      R (net.spaceToSend vn bits t1).2 (net.spaceToSend vn bits t2).2
  send : ∀ (r : Request) (vn : Int) (t1 t2 : T), R t1 t2 →
    (net.send r vn t1).1 = (net.send r vn t2).1 ∧ R (net.send r vn t1).2 (net.send r vn t2).2

/-- Two adapter states that agree up to the announced endpoint type: their
transports are related, the callback, the broadcast flag, the peer counter, the
queue and the Discovery Table are equal, and the traces are equal once the
endpoint type of the announcements is blanked. -/
structure StateRel {T : Type} (R : T → T → Prop) (s1 s2 : NicState T) : Prop where
  iFace : R s1.iFace s2.iFace
  msgHandler : s1.msgHandler = s2.msgHandler
  initBroadcastSent : s1.initBroadcastSent = s2.initBroadcastSent
  numDest : s1.numDest = s2.numDest
  sendQ : s1.sendQ = s2.sendQ
  endpointTypes : s1.endpointTypes = s2.endpointTypes
  calls : s1.calls.map eraseType = s2.calls.map eraseType

/-- Two outcomes that agree up to the announced endpoint type: they are of the
same kind, with the same returned value or the same error, in states that
agree. -/
def OutcomeRel {T ρ : Type} (R : T → T → Prop) :
    Outcome ρ (NicState T) → Outcome ρ (NicState T) → Prop
  | Outcome.ok r1 s1, Outcome.ok r2 s2 => r1 = r2 ∧ StateRel R s1 s2
  | Outcome.fatal e1 s1, Outcome.fatal e2 s2 => e1 = e2 ∧ StateRel R s1 s2
  | Outcome.undefined s1, Outcome.undefined s2 => StateRel R s1 s2
  | Outcome.fuel s1, Outcome.fuel s2 => StateRel R s1 s2
  | _, _ => False

/-- Every member but `init` is the same function in the two classes, and so is
the drain loop of `init`. -/
def SameMembers {T : Type} (net : SimpleNetwork T) : Prop :=
  (∀ (h : Option HandlerBase) (s : NicState T),
    KrustyBusMemIFace.setMsgHandler h s = KrustyBusIFace.setMsgHandler h s) ∧
  (∀ s : NicState T, KrustyBusMemIFace.setup s = KrustyBusIFace.setup s) ∧
  (∀ (sends : List (KrustyBusEvent × Int)) (vn : Int) (s : NicState T),
    KrustyBusMemIFace.msgNotify net sends vn s = KrustyBusIFace.msgNotify net sends vn s) ∧
  (∀ (event : KrustyBusEvent) (destination : Int) (s : NicState T),
    KrustyBusMemIFace.send net event destination s =
      KrustyBusIFace.send net event destination s) ∧
  (∀ (cycle : Nat) (s : NicState T),
    KrustyBusMemIFace.clock net cycle s = KrustyBusIFace.clock net cycle s) ∧
  (∀ s : NicState T,
    KrustyBusMemIFace.getNumDestinations s = KrustyBusIFace.getNumDestinations s) ∧
  (∀ s : NicState T, KrustyBusMemIFace.getAddress net s = KrustyBusIFace.getAddress net s) ∧
  (∀ (fuel : Nat) (s : NicState T),
    KrustyBusMemIFace.initLoop net fuel s = KrustyBusIFace.initLoop net fuel s)

/-- The announcement of an adapter class with member `init`, for the endpoint type
`tag`: one invocation passes to `sendInitData` nothing, or, when the transport
reports itself initialised after the phase was forwarded and the broadcast
flag is clear, exactly one request, whose destination is `INIT_BROADCAST_ADDR`,
whose source is the adapter's own transport address, and whose envelope has the
type `tag` and that address as source. -/
def AnnouncesAs {T : Type} (tag : Nat) (net : SimpleNetwork T)
    (init : Nat → Nat → KrustyBusEvent → NicState T → Outcome Unit (NicState T)) : Prop :=
  ∀ (fuel phase : Nat) (fresh : KrustyBusEvent) (s : NicState T),
    announced (newCalls s (init fuel phase fresh s).state) =
      if net.isNetworkInitialized (net.init phase s.iFace) = true ∧
          s.initBroadcastSent = false then
        [{ dest := net.INIT_BROADCAST_ADDR,
           src := net.getEndpointID (net.init phase s.iFace),
           payload := some { fresh with EType := tag,
                                        Src := net.getEndpointID (net.init phase s.iFace) } }]
      else []

/-- Two states of the scripted transport that differ at most in the requests they
were given to broadcast. -/
def sameButBroadcasts (t1 t2 : Script) : Prop :=
  { t1 with broadcasts := [] } = { t2 with broadcasts := [] }

/-- A life of an adapter: callback, two rounds of `init`, `setup`, two sends, a
tick, a receive notification during which the callback sends a reply, and
another tick. -/
def sampleLife : List Op :=
  [Op.setMsgHandler (some 1), Op.init 0 (envelope 0 0), Op.init 1 (envelope 0 0), Op.setup,
   Op.send (envelope KB_HOST 5) 7, Op.send { envelope KB_HOST 5 with Opcode := KB_READ } 7,
   Op.clock 0, Op.msgNotify 0 [({ envelope KB_HOST 5 with Opcode := KB_WRITE }, 7)],
   Op.clock 1]

/-- A freshly constructed adapter over a scripted transport that is initialised
from phase 1 on, with one announcement and one data request pending and credit
for one send per tick. -/
def freshNic : NicState Script :=
  construct { idle 5 1 with initInbox := [carrying (envelope KB_MEM 7)],
                            inbox := [carrying { envelope KB_MEM 7 with Opcode := KB_WRITE }],
                            credit := [true, false, true], accept := [true, true] }

/-- Member `Event* clone()` of `KrustyBusEvent`: `new KrustyBusEvent(*this)`, the
implicit copy constructor, which copies each of the six fields. -/
def KrustyBusEvent.clone (e : KrustyBusEvent) : KrustyBusEvent :=
  { Opcode := e.Opcode, Size := e.Size, EType := e.EType, Addr := e.Addr, Data := e.Data,
    Src := e.Src }

end KrustyBus

/-! ## Theorems -/

namespace KrustyBus

/-! ### Clock tick (C1) -/

theorem handedOver_append (a b : List Call) : handedOver (a ++ b) = handedOver a ++ handedOver b := by
  induction a with
  | nil => rfl
  | cons c a ih =>
    cases c with
    | send r vn ans => cases ans <;> simp [handedOver, ih]
    | _ => simp [handedOver, ih]

theorem memClockLoop_eq {T : Type} (net : SimpleNetwork T) (q : List Request) (t : T) :
    KrustyBusMemIFace.clockLoop net q t = KrustyBusIFace.clockLoop net q t := by
  induction q generalizing t with
  | nil => rfl
  | cons r q ih =>
    simp only [KrustyBusMemIFace.clockLoop, KrustyBusIFace.clockLoop, ih]

theorem memClock_eq {T : Type} (net : SimpleNetwork T) (cycle : Nat) (s : NicState T) :
    KrustyBusMemIFace.clock net cycle s = KrustyBusIFace.clock net cycle s := by
  simp only [KrustyBusMemIFace.clock, KrustyBusIFace.clock, memClockLoop_eq]

theorem clockLoop_drain {T : Type} (net : SimpleNetwork T) (q : List Request) (t : T) :
    ∃ n, n ≤ q.length ∧
      (KrustyBusIFace.clockLoop net q t).1 = q.drop n ∧
      handedOver (KrustyBusIFace.clockLoop net q t).2.2 = q.take n ∧
      sendCalls (KrustyBusIFace.clockLoop net q t).2.2 ≤ q.length ∧
      DrainSpec net t q (q.take n) (q.drop n) (KrustyBusIFace.clockLoop net q t).2.1 := by
  induction q generalizing t with
  | nil => exact ⟨0, le_refl _, rfl, rfl, le_refl _, DrainSpec.emptied t⟩
  | cons r q ih =>
    rcases h : net.spaceToSend 0 256 t with ⟨b, t1⟩
    cases b with
    | false =>
      refine ⟨0, Nat.zero_le _, ?_, ?_, ?_, ?_⟩
      · simp [KrustyBusIFace.clockLoop, h]
      · simp [KrustyBusIFace.clockLoop, h, handedOver]
      · simp [KrustyBusIFace.clockLoop, h, sendCalls]
      · have hd := @DrainSpec.noCredit T net t r q (by rw [h])
        simpa [KrustyBusIFace.clockLoop, h] using hd
    | true =>
      rcases h1 : net.send r 0 t1 with ⟨a, t2⟩
      cases a with
      | false =>
        refine ⟨0, Nat.zero_le _, ?_, ?_, ?_, ?_⟩
        · simp [KrustyBusIFace.clockLoop, h, h1]
        · simp [KrustyBusIFace.clockLoop, h, h1, handedOver]
        · simp [KrustyBusIFace.clockLoop, h, h1, sendCalls]
        · have hd := @DrainSpec.refused T net t r q (by rw [h]) (by rw [h, h1])
          simpa [KrustyBusIFace.clockLoop, h, h1] using hd
      | true =>
        obtain ⟨n, hn, hq, hh, hs, hd⟩ := ih t2
        refine ⟨n + 1, Nat.succ_le_succ hn, ?_, ?_, ?_, ?_⟩
        · simpa [KrustyBusIFace.clockLoop, h, h1] using hq
        · simpa [KrustyBusIFace.clockLoop, h, h1, handedOver] using hh
        · simpa [KrustyBusIFace.clockLoop, h, h1, sendCalls] using hs
        · have hd1 := @DrainSpec.accepted T net t r q (q.take n) (q.drop n)
            (KrustyBusIFace.clockLoop net q t2).2.1 (by rw [h]) (by rw [h, h1])
            (by rw [h, h1]; exact hd)
          simpa [KrustyBusIFace.clockLoop, h, h1] using hd1


theorem clock_tickContract {T : Type} (net : SimpleNetwork T) :
    TickContract net (KrustyBusIFace.clock net) := by
  intro cycle s
  obtain ⟨n, hn, hq, hh, hs, hd⟩ := clockLoop_drain net s.sendQ s.iFace
  refine ⟨n, (KrustyBusIFace.clockLoop net s.sendQ s.iFace).2.1,
    (KrustyBusIFace.clockLoop net s.sendQ s.iFace).2.2, hn, ?_, hh, hs, hd⟩
  simp only [KrustyBusIFace.clock, hq]

/-- C1. One clock tick of either adapter class (`KrustyBusIFace::clock`,
`KrustyBusMemIFace::clock`), for every queue and every transport: it returns
`false` without error, hands to the transport exactly the first `n` requests of
the queue, in order, where those are the requests for which the transport
answered that it has credit and accepted the send and the drain stopped at
the end of the queue or at the first request without credit or refused; the queue
afterwards is the remaining requests in unchanged order, and `send` is called at
most as many times as the queue is long. -/
theorem clock_drains_in_order {T : Type} (net : SimpleNetwork T) :
    TickContract net (KrustyBusIFace.clock net) ∧
      TickContract net (KrustyBusMemIFace.clock net) := by
  refine ⟨clock_tickContract net, ?_⟩
  have h : KrustyBusMemIFace.clock net = KrustyBusIFace.clock net := by
    funext cycle s
    exact memClock_eq net cycle s
  rw [h]
  exact clock_tickContract net


/-! ### The callback inside `msgNotify` -/

theorem void_state {ρ σ : Type} (o : Outcome ρ σ) : o.void.state = o.state := by
  cases o <;> rfl

theorem returning_state {ρ τ σ : Type} (r : τ) (o : Outcome ρ σ) :
    (o.returning r).state = o.state := by
  cases o <;> rfl

theorem returning_void {τ σ : Type} (r : τ) (o : Outcome Unit σ) : (o.returning r).void = o := by
  cases o <;> rfl

theorem memCallback_eq {T : Type} (net : SimpleNetwork T) (sends : List (KrustyBusEvent × Int))
    (s : NicState T) : KrustyBusMemIFace.callback net sends s = KrustyBusIFace.callback net sends s := by
  induction sends generalizing s with
  | nil => rfl
  | cons p rest ih =>
    have hs : KrustyBusMemIFace.send net p.1 p.2 s = KrustyBusIFace.send net p.1 p.2 s := rfl
    simp only [KrustyBusMemIFace.callback, KrustyBusIFace.callback, hs, ih]

theorem memMsgNotify_eq {T : Type} (net : SimpleNetwork T) (sends : List (KrustyBusEvent × Int))
    (vn : Int) (s : NicState T) :
    KrustyBusMemIFace.msgNotify net sends vn s = KrustyBusIFace.msgNotify net sends vn s := by
  simp only [KrustyBusMemIFace.msgNotify, KrustyBusIFace.msgNotify, memCallback_eq]

/-- What the callback does to the adapter: it appends the requests of its first
`n` sends, all of them if every source is resolved, and nothing else; it can
only end by returning or in the fatal error of `send`. -/
theorem callback_spec {T : Type} (net : SimpleNetwork T) (sends : List (KrustyBusEvent × Int))
    (s : NicState T) :
    (∃ n, n ≤ sends.length ∧
      (KrustyBusIFace.callback net sends s).state =
        { s with sendQ := s.sendQ ++ (sends.take n).map (queued (net.getEndpointID s.iFace)) }) ∧
    ((∀ p ∈ sends, p.1.getSrc ≠ -1) →
      KrustyBusIFace.callback net sends s =
        Outcome.ok ()
          { s with sendQ := s.sendQ ++ sends.map (queued (net.getEndpointID s.iFace)) }) ∧
    (∀ e s1, KrustyBusIFace.callback net sends s = Outcome.fatal e s1 →
      e = FatalError.unresolvedSource ∧ ∃ p ∈ sends, p.1.getSrc = -1) ∧
    (∀ s1, KrustyBusIFace.callback net sends s ≠ Outcome.undefined s1) ∧
    (∀ s1, KrustyBusIFace.callback net sends s ≠ Outcome.fuel s1) := by
  induction sends generalizing s with
  | nil =>
    refine ⟨⟨0, le_refl _, ?_⟩, fun _ => ?_, ?_, ?_, ?_⟩ <;>
      simp [KrustyBusIFace.callback, Outcome.state]
  | cons p rest ih =>
    by_cases hs : p.1.getSrc = -1
    · have hc : KrustyBusIFace.callback net (p :: rest) s =
          Outcome.fatal FatalError.unresolvedSource s := by
        simp [KrustyBusIFace.callback, KrustyBusIFace.send, hs]
      rw [hc]
      refine ⟨⟨0, Nat.zero_le _, by simp [Outcome.state]⟩, fun hall => ?_, ?_, ?_, ?_⟩
      · exact absurd hs (hall p (List.mem_cons_self _ _))
      · intro e s1 he
        simp only [Outcome.fatal.injEq] at he
        exact ⟨he.1.symm, p, List.mem_cons_self _ _, hs⟩
      · intro s1 he
        cases he
      · intro s1 he
        cases he
    · have hc : KrustyBusIFace.callback net (p :: rest) s =
          KrustyBusIFace.callback net rest
            { s with sendQ := s.sendQ ++ [queued (net.getEndpointID s.iFace) p] } := by
        simp [KrustyBusIFace.callback, KrustyBusIFace.send, hs, queued]
      obtain ⟨⟨n, hn, hst⟩, hall, hfat, hund, hfuel⟩ :=
        ih { s with sendQ := s.sendQ ++ [queued (net.getEndpointID s.iFace) p] }
      rw [hc]
      refine ⟨⟨n + 1, Nat.succ_le_succ hn, ?_⟩, fun h1 => ?_, ?_, hund, hfuel⟩
      · rw [hst]
        simp
      · rw [hall (fun q hq => h1 q (List.mem_cons_of_mem _ hq))]
        simp
      · intro e s1 he
        obtain ⟨h1, q, hq, hq1⟩ := hfat e s1 he
        exact ⟨h1, q, List.mem_cons_of_mem _ hq, hq1⟩

/-- The state a notification ends in, however it ends: the transport has answered
one `recv(0)`, the trace has grown by calls that are neither announcements nor
readiness answers nor drained initialisation messages, the queue may have
grown, and no other field has changed. -/
theorem msgNotify_frame {T : Type} (net : SimpleNetwork T) (sends : List (KrustyBusEvent × Int))
    (vn : Int) (s : NicState T) :
    ∃ (cs : List Call) (q : List Request),
      (KrustyBusIFace.msgNotify net sends vn s).state =
        { s with iFace := (net.recv 0 s.iFace).2, calls := s.calls ++ cs, sendQ := q } ∧
      announced cs = [] ∧ reportedReady cs = false ∧ drained cs = [] := by
  rcases hr : net.recv 0 s.iFace with ⟨o, t⟩
  cases o with
  | none =>
    exact ⟨[Call.recv 0 none], s.sendQ, by simp [KrustyBusIFace.msgNotify, hr, Outcome.state],
      rfl, rfl, rfl⟩
  | some req =>
    cases hp : req.payload with
    | none =>
      exact ⟨[Call.recv 0 (some req)], s.sendQ,
        by simp [KrustyBusIFace.msgNotify, hr, hp, Outcome.state], rfl, rfl, rfl⟩
    | some ev =>
      cases hm : s.msgHandler with
      | none =>
        exact ⟨[Call.recv 0 (some req)], s.sendQ,
          by simp [KrustyBusIFace.msgNotify, hr, hp, hm, Outcome.state], rfl, rfl, rfl⟩
      | some hd =>
        obtain ⟨⟨n, _, hst⟩, _⟩ := callback_spec net sends
          { s with iFace := t, calls := s.calls ++ [Call.recv 0 (some req)] ++ [Call.handler hd ev] }
        refine ⟨[Call.recv 0 (some req), Call.handler hd ev],
          s.sendQ ++ (sends.take n).map (queued (net.getEndpointID t)), ?_, rfl, rfl, rfl⟩
        have e : KrustyBusIFace.msgNotify net sends vn s =
            (KrustyBusIFace.callback net sends
              { s with iFace := t,
                       calls := s.calls ++ [Call.recv 0 (some req)] ++
                         [Call.handler hd ev] }).returning true := by
          simp only [KrustyBusIFace.msgNotify, hr, hp, hm]
        rw [e, returning_state, hst]
        simp [hm]

/-! ### The two classes as instances of `runAs`; `send` and queue order (C2, C3) -/

theorem memInitLoop_eq {T : Type} (net : SimpleNetwork T) (fuel : Nat) (s : NicState T) :
    KrustyBusMemIFace.initLoop net fuel s = KrustyBusIFace.initLoop net fuel s := by
  induction fuel generalizing s with
  | zero => rfl
  | succ n ih => simp only [KrustyBusMemIFace.initLoop, KrustyBusIFace.initLoop, ih]

theorem step_eq_stepAs {T : Type} (net : SimpleNetwork T) (fuel : Nat) (op : Op)
    (s : NicState T) : KrustyBusIFace.step net fuel op s = stepAs KB_HOST net fuel op s := by
  cases op <;> rfl

theorem memStep_eq_stepAs {T : Type} (net : SimpleNetwork T) (fuel : Nat) (op : Op)
    (s : NicState T) : KrustyBusMemIFace.step net fuel op s = stepAs KB_MEM net fuel op s := by
  cases op with
  | init phase fresh =>
    simp only [KrustyBusMemIFace.step, KrustyBusMemIFace.init, memInitLoop_eq, stepAs]
    rfl
  | clock cycle => simp only [KrustyBusMemIFace.step, memClock_eq, stepAs]
  | msgNotify vn sends => simp only [KrustyBusMemIFace.step, memMsgNotify_eq, stepAs]
  | _ => rfl

theorem run_eq_runAs {T : Type} (net : SimpleNetwork T) (fuel : Nat) (ops : List Op)
    (s : NicState T) : KrustyBusIFace.run net fuel ops s = runAs KB_HOST net fuel ops s := by
  induction ops generalizing s with
  | nil => rfl
  | cons op ops ih =>
    simp only [KrustyBusIFace.run, runAs, step_eq_stepAs]
    cases stepAs KB_HOST net fuel op s <;> simp [ih]

theorem memRun_eq_runAs {T : Type} (net : SimpleNetwork T) (fuel : Nat) (ops : List Op)
    (s : NicState T) : KrustyBusMemIFace.run net fuel ops s = runAs KB_MEM net fuel ops s := by
  induction ops generalizing s with
  | nil => rfl
  | cons op ops ih =>
    simp only [KrustyBusMemIFace.run, runAs, memStep_eq_stepAs]
    cases stepAs KB_MEM net fuel op s <;> simp [ih]

theorem send_sendContract {T : Type} (net : SimpleNetwork T) :
    SendContract (KrustyBusIFace.getAddress net) (KrustyBusIFace.send net) := by
  intro event destination s
  by_cases h : event.getSrc = -1
  · simp [KrustyBusIFace.send, h, Outcome.state]
  · simp [KrustyBusIFace.send, h, KrustyBusIFace.getAddress]

theorem runAs_fifo {T : Type} (tag : Nat) (net : SimpleNetwork T) (fuel : Nat) (ops : List Op)
    (s : NicState T) (h : SendsAndTicks ops) : FifoAfter ops s (runAs tag net fuel ops s) := by
  induction ops generalizing s with
  | nil => exact ⟨s, [], rfl, by simp, by simp [handedOver, sentBy]⟩
  | cons op ops ih =>
    cases op with
    | send event destination =>
      obtain ⟨hsrc, hrest⟩ := h
      have hs := ((send_sendContract net) event destination s).2.2 hsrc
      obtain ⟨s1, cs, hrun, hcalls, hmap⟩ := ih _ hrest
      refine ⟨s1, cs, ?_, ?_, ?_⟩
      · simp only [runAs, stepAs, hs]
        exact hrun
      · simpa using hcalls
      · simpa [sentBy] using hmap
    | clock cycle =>
      obtain ⟨n, t1, cs0, _, hclock, hh, _, _⟩ := clock_tickContract net cycle s
      obtain ⟨s1, cs, hrun, hcalls, hmap⟩ := ih _ h
      refine ⟨s1, cs0 ++ cs, ?_, ?_, ?_⟩
      · simp only [runAs, stepAs, hclock, Outcome.void]
        exact hrun
      · simpa [List.append_assoc] using hcalls
      · have hsplit : s.sendQ.map (fun r => (r.payload, r.dest)) =
            (s.sendQ.take n).map (fun r => (r.payload, r.dest)) ++
              (s.sendQ.drop n).map (fun r => (r.payload, r.dest)) := by
          rw [← List.map_append, List.take_append_drop]
        simp only [handedOver_append, hh, sentBy, List.map_append, List.append_assoc] at hmap ⊢
        rw [hsplit, List.append_assoc, ← hmap]
    | setMsgHandler _ => exact absurd h (by simp [SendsAndTicks])
    | init _ _ => exact absurd h (by simp [SendsAndTicks])
    | setup => exact absurd h (by simp [SendsAndTicks])
    | msgNotify _ _ => exact absurd h (by simp [SendsAndTicks])


/-- C2. FIFO preservation under credit throttling: for every interleaving of
`send` calls with a resolved source and of clock ticks on one adapter of either
class, from any state and against any transport, the run returns, and the
requests handed to the transport during the run followed by the requests still
queued are the requests queued before followed by the events passed to `send`
(with their destinations), in call order: nothing is reordered, duplicated or
lost. -/
theorem fifo_under_credit_throttling {T : Type} (net : SimpleNetwork T) (fuel : Nat)
    (ops : List Op) (s : NicState T) (h : SendsAndTicks ops) :
    FifoAfter ops s (KrustyBusIFace.run net fuel ops s) ∧
      FifoAfter ops s (KrustyBusMemIFace.run net fuel ops s) := by
  rw [run_eq_runAs, memRun_eq_runAs]
  exact ⟨runAs_fifo KB_HOST net fuel ops s h, runAs_fifo KB_MEM net fuel ops s h⟩

/-- Witness of C2 on the sample traffic: three sends and two ticks against a
transport that withholds credit once. -/
theorem fifo_under_credit_throttling_witness :
    SendsAndTicks sampleTraffic ∧
      FifoAfter sampleTraffic sampleNic (KrustyBusIFace.run scriptNet 0 sampleTraffic sampleNic) ∧
      FifoAfter sampleTraffic sampleNic
        (KrustyBusMemIFace.run scriptNet 0 sampleTraffic sampleNic) :=
  ⟨by simp [sampleTraffic, SendsAndTicks, KrustyBusEvent.getSrc, envelope],
    fifo_under_credit_throttling scriptNet 0 sampleTraffic sampleNic
      (by simp [sampleTraffic, SendsAndTicks, KrustyBusEvent.getSrc, envelope])⟩

/-- C3. Member `send(event, destination)` of either adapter class, in every
state: it raises a fatal error if and only if the source of the event is `-1`,
the error is the one of `send` and the state, the queue included, is as it was;
otherwise it returns with exactly one request appended to the tail of the
queue, carrying the event as payload, `dest = destination` and `src` the
adapter's own transport address, and every other field (earlier queue entries,
Discovery Table, peer counter, broadcast flag, callback, transport) is
unchanged. -/
theorem send_fatal_iff_source_unresolved {T : Type} (net : SimpleNetwork T) :
    SendContract (KrustyBusIFace.getAddress net) (KrustyBusIFace.send net) ∧
      SendContract (KrustyBusMemIFace.getAddress net) (KrustyBusMemIFace.send net) :=
  ⟨send_sendContract net, send_sendContract net⟩


/-! ### The announcement (C4) -/

theorem announced_append (a b : List Call) : announced (a ++ b) = announced a ++ announced b := by
  induction a with
  | nil => rfl
  | cons c a ih => cases c <;> simp [announced, ih]

theorem reportedReady_append (a b : List Call) :
    reportedReady (a ++ b) = (reportedReady a || reportedReady b) := by
  induction a with
  | nil => rfl
  | cons c a ih =>
    cases c with
    | isNetworkInitialized ans => cases ans <;> simp [reportedReady, ih]
    | _ => simp [reportedReady, ih]

/-- What the drain loop of `init` leaves alone, however it ends. -/
theorem initLoop_frame {T : Type} (net : SimpleNetwork T) (fuel : Nat) (s : NicState T) :
    ∃ cs, (KrustyBusIFace.initLoop net fuel s).state.calls = s.calls ++ cs ∧
      announced cs = [] ∧ reportedReady cs = false ∧ handedOver cs = [] ∧
      (KrustyBusIFace.initLoop net fuel s).state.initBroadcastSent = s.initBroadcastSent ∧
      (KrustyBusIFace.initLoop net fuel s).state.sendQ = s.sendQ ∧
      (KrustyBusIFace.initLoop net fuel s).state.msgHandler = s.msgHandler := by
  induction fuel generalizing s with
  | zero => exact ⟨[], by simp [KrustyBusIFace.initLoop, Outcome.state], rfl, rfl, rfl, rfl, rfl, rfl⟩
  | succ n ih =>
    rcases h : net.recvInitData s.iFace with ⟨o, t⟩
    cases o with
    | none =>
      exact ⟨[Call.recvInitData none], by simp [KrustyBusIFace.initLoop, h, Outcome.state],
        rfl, rfl, rfl, by simp [KrustyBusIFace.initLoop, h, Outcome.state],
        by simp [KrustyBusIFace.initLoop, h, Outcome.state],
        by simp [KrustyBusIFace.initLoop, h, Outcome.state]⟩
    | some req =>
      cases hp : req.payload with
      | none =>
        exact ⟨[Call.recvInitData (some req)],
          by simp [KrustyBusIFace.initLoop, h, hp, Outcome.state], rfl, rfl, rfl,
          by simp [KrustyBusIFace.initLoop, h, hp, Outcome.state],
          by simp [KrustyBusIFace.initLoop, h, hp, Outcome.state],
          by simp [KrustyBusIFace.initLoop, h, hp, Outcome.state]⟩
      | some ev =>
        obtain ⟨cs, hc, ha, hr, hh, hf, hq, hm⟩ := ih
          { s with iFace := t, calls := s.calls ++ [Call.recvInitData (some req)],
                   endpointTypes := mapAssign ev.getSrc ev.getType s.endpointTypes,
                   numDest := wrapInt32 (s.numDest + 1) }
        refine ⟨Call.recvInitData (some req) :: cs, ?_, ?_, ?_, ?_, ?_, ?_, ?_⟩
        · simpa [KrustyBusIFace.initLoop, h, hp] using hc
        · simpa [announced] using ha
        · simpa [reportedReady] using hr
        · simpa [handedOver] using hh
        · simpa [KrustyBusIFace.initLoop, h, hp] using hf
        · simpa [KrustyBusIFace.initLoop, h, hp] using hq
        · simpa [KrustyBusIFace.initLoop, h, hp] using hm


theorem announceInv_announcedOnce {T : Type} (s : NicState T) (h : AnnounceInv s) :
    AnnouncedOnce s := by
  rcases h with ⟨hr, hf, ha⟩ | ⟨hr, hf, pre, req, post, hc, hpr, hpa, hpo⟩
  · refine ⟨by simp [ha], by simp [ha, hr], by simp [hr], by simp [hf, hr]⟩
  · have hlen : (announced s.calls).length = 1 := by
      rw [hc, announced_append]
      simp [announced, hpa, hpo]
    exact ⟨by omega, by simp [hlen, hr], fun _ => ⟨pre, req, post, hc, hpr, hpa, hpo⟩,
      by simp [hf, hr]⟩

theorem announceInv_append {T : Type} (s s1 : NicState T) (cs : List Call)
    (h : AnnounceInv s) (hc : s1.calls = s.calls ++ cs) (ha : announced cs = [])
    (hr : reportedReady cs = false) (hf : s1.initBroadcastSent = s.initBroadcastSent) :
    AnnounceInv s1 := by
  rcases h with ⟨hr0, hf0, ha0⟩ | ⟨hr0, hf0, pre, req, post, hc0, hpr, hpa, hpo⟩
  · left
    exact ⟨by rw [hc, reportedReady_append, hr0, hr]; rfl, by rw [hf, hf0],
      by rw [hc, announced_append, ha0, ha]; rfl⟩
  · right
    refine ⟨by rw [hc, reportedReady_append, hr0]; rfl, by rw [hf, hf0],
      pre, req, post ++ cs, ?_, hpr, hpa, by rw [announced_append, hpo, ha]; rfl⟩
    rw [hc, hc0]
    simp

theorem announceInv_announceAs {T : Type} (tag : Nat) (net : SimpleNetwork T) (phase : Nat)
    (fresh : KrustyBusEvent) (s : NicState T) (h : AnnounceInv s) :
    AnnounceInv (announceAs tag net phase fresh s) := by
  cases hready : net.isNetworkInitialized (net.init phase s.iFace) with
  | false =>
    refine announceInv_append s _ [Call.init phase, Call.isNetworkInitialized false] h ?_ rfl rfl ?_
    · simp [announceAs, hready]
    · simp [announceAs, hready]
  | true =>
    rcases h with ⟨hr0, hf0, ha0⟩ | ⟨hr0, hf0, pre, req, post, hc0, hpr, hpa, hpo⟩
    · right
      refine ⟨?_, ?_, s.calls ++ [Call.init phase],
        { dest := net.INIT_BROADCAST_ADDR, src := net.getEndpointID (net.init phase s.iFace),
          payload := some ((fresh.setType tag).setSrc (net.getEndpointID (net.init phase s.iFace))) },
        [], ?_, ?_, ?_, rfl⟩
      · simp [announceAs, hready, hf0, reportedReady_append, reportedReady]
      · simp [announceAs, hready, hf0]
      · simp [announceAs, hready, hf0]
      · simp [reportedReady_append, hr0, reportedReady]
      · simp [announced_append, ha0, announced]
    · right
      refine ⟨?_, ?_, pre, req, post ++ [Call.init phase, Call.isNetworkInitialized true],
        ?_, hpr, hpa, ?_⟩
      · simp [announceAs, hready, hf0, reportedReady_append, hr0]
      · simp [announceAs, hready, hf0]
      · simp [announceAs, hready, hf0, hc0]
      · simp [announced_append, hpo, announced]


theorem announceInv_runAs {T : Type} (tag : Nat) (net : SimpleNetwork T) (fuel : Nat)
    (phases : List (Nat × KrustyBusEvent)) (s : NicState T) (h : AnnounceInv s) :
    AnnounceInv (runAs tag net fuel (initOps phases) s).state := by
  induction phases generalizing s with
  | nil => exact h
  | cons p phases ih =>
    have hstep : AnnounceInv
        (KrustyBusIFace.initLoop net fuel (announceAs tag net p.1 p.2 s)).state := by
      obtain ⟨cs, hc, ha, hr, _, hf, _, _⟩ :=
        initLoop_frame net fuel (announceAs tag net p.1 p.2 s)
      exact announceInv_append _ _ cs (announceInv_announceAs tag net p.1 p.2 s h) hc ha hr hf
    simp only [initOps, List.map_cons, runAs, stepAs] at ih ⊢
    cases ho : KrustyBusIFace.initLoop net fuel (announceAs tag net p.1 p.2 s) with
    | ok r s1 =>
      rw [ho] at hstep
      exact ih s1 hstep
    | fatal e s1 => rw [ho] at hstep; exact hstep
    | undefined s1 => rw [ho] at hstep; exact hstep
    | fuel s1 => rw [ho] at hstep; exact hstep

theorem flag_announceAs {T : Type} (tag : Nat) (net : SimpleNetwork T) (phase : Nat)
    (fresh : KrustyBusEvent) (s : NicState T) (h : s.initBroadcastSent = true) :
    (announceAs tag net phase fresh s).initBroadcastSent = true := by
  cases hready : net.isNetworkInitialized (net.init phase s.iFace) <;>
    simp [announceAs, hready, h]

theorem flag_stepAs {T : Type} (tag : Nat) (net : SimpleNetwork T) (fuel : Nat) (op : Op)
    (s : NicState T) (h : s.initBroadcastSent = true) :
    (stepAs tag net fuel op s).state.initBroadcastSent = true := by
  cases op with
  | setMsgHandler handler => exact h
  | init phase fresh =>
    obtain ⟨_, _, _, _, _, hf, _, _⟩ :=
      initLoop_frame net fuel (announceAs tag net phase fresh s)
    simp only [stepAs]
    rw [hf]
    exact flag_announceAs tag net phase fresh s h
  | setup =>
    cases hm : s.msgHandler <;> simp [stepAs, KrustyBusIFace.setup, hm, Outcome.state, h]
  | send event destination =>
    by_cases hs : event.getSrc = -1 <;> simp [stepAs, KrustyBusIFace.send, hs, Outcome.state, h]
  | clock cycle =>
    obtain ⟨n, t1, cs, _, hclock, _, _, _⟩ := clock_tickContract net cycle s
    simp [stepAs, hclock, Outcome.void, Outcome.state, h]
  | msgNotify vn sends =>
    obtain ⟨cs, q, hst, _⟩ := msgNotify_frame net sends vn s
    simp only [stepAs, void_state, hst]
    exact h

theorem flag_runAs {T : Type} (tag : Nat) (net : SimpleNetwork T) (fuel : Nat) :
    FlagStays (runAs tag net fuel) := by
  intro ops
  induction ops with
  | nil => intro s h; exact h
  | cons op ops ih =>
    intro s h
    have hstep := flag_stepAs tag net fuel op s h
    simp only [runAs]
    cases ho : stepAs tag net fuel op s with
    | ok r s1 =>
      rw [ho] at hstep
      exact ih s1 hstep
    | fatal e s1 => rw [ho] at hstep; exact hstep
    | undefined s1 => rw [ho] at hstep; exact hstep
    | fuel s1 => rw [ho] at hstep; exact hstep

/-- C4. Announcement idempotence, for both adapter classes: after any sequence of
`init` invocations on a freshly constructed adapter, with any phase numbers and
any transport, at most one announcement was passed to `sendInitData`; exactly
one was if and only if the transport has answered that the network is
initialised, and it was passed directly after the first such answer, so during
the first invocation in which the transport reported ready; the flag
`initBroadcastSent` is then set, and once set no operation clears it. -/
theorem announcement_sent_once {T : Type} (net : SimpleNetwork T) (fuel : Nat) (t0 : T)
    (phases : List (Nat × KrustyBusEvent)) :
    AnnouncedOnce (KrustyBusIFace.run net fuel (initOps phases) (construct t0)).state ∧
      AnnouncedOnce (KrustyBusMemIFace.run net fuel (initOps phases) (construct t0)).state ∧
      FlagStays (KrustyBusIFace.run net fuel) ∧ FlagStays (KrustyBusMemIFace.run net fuel) := by
  have h0 : AnnounceInv (construct t0) := Or.inl ⟨rfl, rfl, rfl⟩
  have e1 : KrustyBusIFace.run net fuel = runAs KB_HOST net fuel := by
    funext ops s
    exact run_eq_runAs net fuel ops s
  have e2 : KrustyBusMemIFace.run net fuel = runAs KB_MEM net fuel := by
    funext ops s
    exact memRun_eq_runAs net fuel ops s
  rw [e1, e2]
  exact ⟨announceInv_announcedOnce _ (announceInv_runAs KB_HOST net fuel phases _ h0),
    announceInv_announcedOnce _ (announceInv_runAs KB_MEM net fuel phases _ h0),
    flag_runAs KB_HOST net fuel, flag_runAs KB_MEM net fuel⟩


/-! ### The discovery drain (C5) -/

theorem wrapInt32_of_inRange (x : Int) (h : -(2 ^ 31 : Int) ≤ x) (h1 : x < 2 ^ 31) :
    wrapInt32 x = x := by
  unfold wrapInt32
  omega

theorem countUp_of_inRange (k : Nat) (n : Int) (h : -(2 ^ 31 : Int) ≤ n)
    (h1 : n + k < 2 ^ 31) : countUp k n = n + k := by
  induction k generalizing n with
  | zero => simp [countUp]
  | succ k ih =>
    have hw : wrapInt32 (n + 1) = n + 1 := wrapInt32_of_inRange _ (by omega) (by push_cast at h1; omega)
    rw [countUp, hw, ih (n + 1) (by omega) (by push_cast at h1 ⊢; omega)]
    push_cast
    ring

theorem initLoop_drains {T : Type} (net : SimpleNetwork T) (reqs : List Request) :
    ∀ (ms : List KrustyBusEvent) (s : NicState T) (t1 : T) (fuel : Nat),
      PendingInit net s.iFace reqs t1 → reqs.map Request.payload = ms.map some →
      reqs.length < fuel →
      KrustyBusIFace.initLoop net fuel s =
        Outcome.ok ()
          { s with iFace := t1,
                   calls := s.calls ++ reqs.map (fun r => Call.recvInitData (some r)) ++
                     [Call.recvInitData none],
                   endpointTypes := recordAll ms s.endpointTypes,
                   numDest := countUp ms.length s.numDest } := by
  induction reqs with
  | nil =>
    intro ms s t1 fuel hp hm hf
    cases ms with
    | cons m ms => simp at hm
    | nil =>
      cases fuel with
      | zero => omega
      | succ f =>
        cases hp with
        | none _ h =>
          rcases hrecv : net.recvInitData s.iFace with ⟨o, t⟩
          rw [hrecv] at h
          simp only at h
          subst h
          simp [KrustyBusIFace.initLoop, hrecv, recordAll, countUp]
  | cons r rs ih =>
    intro ms s t1 fuel hp hm hf
    cases ms with
    | nil => simp at hm
    | cons m ms =>
      cases fuel with
      | zero => omega
      | succ f =>
        simp only [List.map_cons, List.cons.injEq] at hm
        obtain ⟨hpay, hm1⟩ := hm
        cases hp with
        | some _ _ _ _ h h1 =>
          rcases hrecv : net.recvInitData s.iFace with ⟨o, t⟩
          rw [hrecv] at h h1
          simp only at h h1
          subst h
          have hlen : rs.length < f := by simpa using hf
          have step := ih ms
            { s with iFace := t, calls := s.calls ++ [Call.recvInitData (some r)],
                     endpointTypes := mapAssign m.getSrc m.getType s.endpointTypes,
                     numDest := wrapInt32 (s.numDest + 1) } t1 f h1 hm1 hlen
          simp only [KrustyBusIFace.initLoop, hrecv, hpay, step]
          simp [recordAll, countUp]


theorem drainContract_as {T : Type} (tag : Nat) (net : SimpleNetwork T) :
    DrainContract net (announceAs tag net)
      (fun fuel phase fresh s =>
        KrustyBusIFace.initLoop net fuel (announceAs tag net phase fresh s)) := by
  intro phase fresh s ms reqs t1 fuel hp hm hlo hhi hf
  have hlen : reqs.length = ms.length := by
    have := congrArg List.length hm
    simpa using this
  have hrun := initLoop_drains net reqs ms (announceAs tag net phase fresh s) t1 fuel hp hm
    (by omega)
  have hframe : (announceAs tag net phase fresh s).endpointTypes = s.endpointTypes ∧
      (announceAs tag net phase fresh s).numDest = s.numDest ∧
      (announceAs tag net phase fresh s).sendQ = s.sendQ ∧
      (announceAs tag net phase fresh s).msgHandler = s.msgHandler := by
    cases hready : net.isNetworkInitialized (net.init phase s.iFace) <;>
      cases hflag : s.initBroadcastSent <;> simp [announceAs, hready, hflag]
  obtain ⟨h1, h2, h3, h4⟩ := hframe
  refine ⟨_, hrun, rfl, rfl, ?_, ?_, h3, h4⟩
  · simp [h1]
  · simp [h2, countUp_of_inRange ms.length s.numDest hlo hhi]

/-- C5, as amended.  Discovery drain, for both adapter classes, every adapter
state, every transport (initialised or not, broadcast sent or not) and every
finite list of initialisation messages pending when the drain starts: one
`init` invocation consumes all `k` of them and sees the transport empty, the
Discovery Table is the old one updated with `source -> endpoint type` of each
message in arrival order, and the peer counter has increased by exactly `k`,
provided the 32-bit `int` counter does not pass `2 ^ 31 - 1`. -/
theorem init_drains_all_pending {T : Type} (net : SimpleNetwork T) :
    DrainContract net (KrustyBusIFace.initBroadcast net) (KrustyBusIFace.init net) ∧
      DrainContract net (KrustyBusMemIFace.initBroadcast net) (KrustyBusMemIFace.init net) := by
  have e : KrustyBusMemIFace.init net =
      fun fuel phase fresh s =>
        KrustyBusIFace.initLoop net fuel (announceAs KB_MEM net phase fresh s) := by
    funext fuel phase fresh s
    simp only [KrustyBusMemIFace.init, memInitLoop_eq]
    rfl
  rw [e]
  exact ⟨drainContract_as KB_HOST net, drainContract_as KB_MEM net⟩

/-- Witness of C5: a freshly constructed host adapter with two announcements
pending drains both in one `init`. -/
theorem init_drains_all_pending_witness :
    DrainsAll (KrustyBusIFace.initBroadcast scriptNet 0 (envelope 0 0) twoPeersNic)
      (KrustyBusIFace.init scriptNet 3 0 (envelope 0 0) twoPeersNic) twoPeersNic
      [envelope KB_MEM 7, envelope KB_HOST 3]
      [carrying (envelope KB_MEM 7), carrying (envelope KB_HOST 3)]
      { idle 5 0 with broadcasts := [{ dest := -1, src := 5, payload := some (envelope KB_HOST 5) }] } :=
  (init_drains_all_pending scriptNet).1 0 (envelope 0 0) twoPeersNic
    [envelope KB_MEM 7, envelope KB_HOST 3]
    [carrying (envelope KB_MEM 7), carrying (envelope KB_HOST 3)] _ 3
    (PendingInit.some _ _ _ _ rfl (PendingInit.some _ _ _ _ rfl (PendingInit.none _ rfl)))
    rfl (by decide) (by decide) (by decide)

/-- Counterexample to C5 as stated: with the peer counter at `2147483647` and one
announcement pending, `init` drains it and records it, but the counter is
`-2147483648` afterwards, not `2147483648`. -/
theorem init_counter_wraps :
    PendingInit scriptNet
        (KrustyBusIFace.initBroadcast scriptNet 0 (envelope 0 0) fullCounterNic).iFace
        [carrying (envelope KB_MEM 7)] { idle 5 1 with initInbox := [] } ∧
      (KrustyBusIFace.init scriptNet 2 0 (envelope 0 0) fullCounterNic).state.numDest =
        -2147483648 ∧
      ¬ DrainsAll (KrustyBusIFace.initBroadcast scriptNet 0 (envelope 0 0) fullCounterNic)
        (KrustyBusIFace.init scriptNet 2 0 (envelope 0 0) fullCounterNic) fullCounterNic
        [envelope KB_MEM 7] [carrying (envelope KB_MEM 7)] { idle 5 1 with initInbox := [] } := by
  refine ⟨PendingInit.some _ _ _ _ rfl (PendingInit.none _ rfl), by decide, ?_⟩
  rintro ⟨s1, ho, _, _, _, hn, _⟩
  have h2 : (KrustyBusIFace.init scriptNet 2 0 (envelope 0 0) fullCounterNic).state.numDest
      = -2147483648 := by decide
  rw [ho] at h2
  simp only [Outcome.state] at h2
  rw [h2] at hn
  revert hn
  decide


/-! ### Peer counter and Discovery Table (C6) -/

theorem drained_append (a b : List Call) : drained (a ++ b) = drained a ++ drained b := by
  induction a with
  | nil => rfl
  | cons c a ih =>
    cases c with
    | recvInitData res => cases res <;> simp [drained, ih]
    | _ => simp [drained, ih]

theorem drainedSrcs_append (a b : List Call) :
    drainedSrcs (a ++ b) = drainedSrcs a ++ drainedSrcs b := by
  simp [drainedSrcs, drained_append, List.filterMap_append]

theorem countUp_succ (k : Nat) (n : Int) : countUp (k + 1) n = wrapInt32 (countUp k n + 1) := by
  induction k generalizing n with
  | zero => rfl
  | succ k ih =>
    have h := ih (wrapInt32 (n + 1))
    simpa [countUp] using h

theorem mem_keys_mapAssign (k : Int) (v : Nat) (m : List (Int × Nat)) (k1 : Int) :
    k1 ∈ (mapAssign k v m).map Prod.fst ↔ k1 = k ∨ k1 ∈ m.map Prod.fst := by
  induction m with
  | nil => simp [mapAssign]
  | cons p m ih =>
    obtain ⟨a, b⟩ := p
    by_cases h : k = a
    · subst h
      simp [mapAssign]
    · by_cases h1 : k < a
      · simp [mapAssign, h, h1]
      · simp only [mapAssign, h, h1, if_false, List.map_cons, List.mem_cons, ih]
        tauto

theorem sorted_keys_mapAssign (k : Int) (v : Nat) (m : List (Int × Nat))
    (h : (m.map Prod.fst).Pairwise (fun a b => a < b)) :
    ((mapAssign k v m).map Prod.fst).Pairwise (fun a b => a < b) := by
  induction m with
  | nil => simp [mapAssign]
  | cons p m ih =>
    obtain ⟨a, b⟩ := p
    simp only [List.map_cons, List.pairwise_cons] at h
    obtain ⟨ha, hm⟩ := h
    by_cases h0 : k = a
    · subst h0
      simp only [mapAssign, if_true, List.map_cons, List.pairwise_cons]
      exact ⟨ha, hm⟩
    · by_cases h1 : k < a
      · simp only [mapAssign, h0, h1, if_false, if_true, List.map_cons, List.pairwise_cons]
        refine ⟨?_, ha, hm⟩
        intro x hx
        rcases List.mem_cons.1 hx with hx | hx
        · rw [hx]; exact h1
        · exact lt_trans h1 (ha x hx)
      · simp only [mapAssign, h0, h1, if_false, List.map_cons, List.pairwise_cons]
        refine ⟨?_, ih hm⟩
        intro x hx
        rcases (mem_keys_mapAssign k v m x).1 hx with hx | hx
        · rw [hx]; omega
        · exact ha x hx

theorem clockLoop_drained {T : Type} (net : SimpleNetwork T) (q : List Request) (t : T) :
    drainedSrcs (KrustyBusIFace.clockLoop net q t).2.2 = [] := by
  induction q generalizing t with
  | nil => rfl
  | cons r q ih =>
    rcases h : net.spaceToSend 0 256 t with ⟨b, t1⟩
    cases b with
    | false => simp [KrustyBusIFace.clockLoop, h, drainedSrcs, drained]
    | true =>
      rcases h1 : net.send r 0 t1 with ⟨a, t2⟩
      cases a with
      | false => simp [KrustyBusIFace.clockLoop, h, h1, drainedSrcs, drained]
      | true =>
        have := ih t2
        simpa [KrustyBusIFace.clockLoop, h, h1, drainedSrcs, drained] using this

theorem tableInv_frame {T : Type} (s s1 : NicState T) (h : TableInv s)
    (hn : s1.numDest = s.numDest) (he : s1.endpointTypes = s.endpointTypes)
    (hc : drainedSrcs s1.calls = drainedSrcs s.calls) : TableInv s1 := by
  unfold TableInv at h ⊢
  rw [hn, he, hc]
  exact h

theorem tableInv_initLoop {T : Type} (net : SimpleNetwork T) (fuel : Nat) (s : NicState T)
    (h : TableInv s) : TableInv (KrustyBusIFace.initLoop net fuel s).state := by
  induction fuel generalizing s with
  | zero => exact h
  | succ n ih =>
    rcases hr : net.recvInitData s.iFace with ⟨o, t⟩
    cases o with
    | none =>
      refine tableInv_frame s _ h ?_ ?_ ?_
      all_goals simp only [KrustyBusIFace.initLoop, hr, Outcome.state, drainedSrcs_append]
      all_goals simp [drainedSrcs, drained]
    | some req =>
      cases hp : req.payload with
      | none =>
        refine tableInv_frame s _ h ?_ ?_ ?_
        all_goals simp only [KrustyBusIFace.initLoop, hr, hp, Outcome.state, drainedSrcs_append]
        all_goals simp [drainedSrcs, drained, hp]
      | some ev =>
        simp only [KrustyBusIFace.initLoop, hr, hp]
        apply ih
        obtain ⟨h1, h2, h3⟩ := h
        have hsrc : drainedSrcs (s.calls ++ [Call.recvInitData (some req)]) =
            drainedSrcs s.calls ++ [ev.getSrc] := by
          rw [drainedSrcs_append]
          simp [drainedSrcs, drained, hp, KrustyBusEvent.getSrc]
        refine ⟨?_, sorted_keys_mapAssign _ _ _ h2, ?_⟩
        · simp only [hsrc, List.length_append, List.length_singleton, countUp_succ, h1]
        · intro k
          simp only [hsrc, mem_keys_mapAssign, h3 k, List.mem_append, List.mem_singleton]
          tauto


theorem tableInv_announceAs {T : Type} (tag : Nat) (net : SimpleNetwork T) (phase : Nat)
    (fresh : KrustyBusEvent) (s : NicState T) (h : TableInv s) :
    TableInv (announceAs tag net phase fresh s) := by
  refine tableInv_frame s _ h ?_ ?_ ?_
  all_goals
    cases hready : net.isNetworkInitialized (net.init phase s.iFace) <;>
      cases hflag : s.initBroadcastSent <;>
        simp only [announceAs, hready, hflag, drainedSrcs_append, Bool.not_false,
          Bool.not_true, if_true, if_false, Bool.false_eq_true]
  all_goals simp [drainedSrcs, drained]

theorem tableInv_stepAs {T : Type} (tag : Nat) (net : SimpleNetwork T) (fuel : Nat) (op : Op)
    (s : NicState T) (h : TableInv s) : TableInv (stepAs tag net fuel op s).state := by
  cases op with
  | setMsgHandler handler => exact tableInv_frame s _ h rfl rfl rfl
  | init phase fresh =>
    exact tableInv_initLoop net fuel _ (tableInv_announceAs tag net phase fresh s h)
  | setup =>
    cases hm : s.msgHandler <;>
      simpa [stepAs, KrustyBusIFace.setup, hm, Outcome.state] using h
  | send event destination =>
    by_cases hs : event.getSrc = -1
    · simpa [stepAs, KrustyBusIFace.send, hs, Outcome.state] using h
    · refine tableInv_frame s _ h ?_ ?_ ?_ <;>
        simp [stepAs, KrustyBusIFace.send, hs, Outcome.state]
  | clock cycle =>
    have hd := clockLoop_drained net s.sendQ s.iFace
    refine tableInv_frame s _ h ?_ ?_ ?_
    all_goals simp only [stepAs, KrustyBusIFace.clock, Outcome.void, Outcome.state,
      drainedSrcs_append, hd, List.append_nil]
  | msgNotify vn sends =>
    obtain ⟨cs, q, hst, _, _, hd⟩ := msgNotify_frame net sends vn s
    refine tableInv_frame s _ h ?_ ?_ ?_
    all_goals simp only [stepAs, void_state, hst, drainedSrcs_append]
    all_goals simp [drainedSrcs, hd]

theorem tableInv_runAs {T : Type} (tag : Nat) (net : SimpleNetwork T) (fuel : Nat)
    (ops : List Op) (s : NicState T) (h : TableInv s) :
    TableInv (runAs tag net fuel ops s).state := by
  induction ops generalizing s with
  | nil => exact h
  | cons op ops ih =>
    have hstep := tableInv_stepAs tag net fuel op s h
    simp only [runAs]
    cases ho : stepAs tag net fuel op s with
    | ok r s1 =>
      rw [ho] at hstep
      exact ih s1 hstep
    | fatal e s1 => rw [ho] at hstep; exact hstep
    | undefined s1 => rw [ho] at hstep; exact hstep
    | fuel s1 => rw [ho] at hstep; exact hstep

theorem tableInv_counts {T : Type} (s : NicState T) (h : TableInv s) :
    CountsAnnouncements (fun s1 : NicState T => s1.numDest) s := by
  obtain ⟨h1, h2, h3⟩ := h
  have hnodup : (s.endpointTypes.map Prod.fst).Nodup :=
    h2.imp (fun hab => ne_of_lt hab)
  have hperm : (s.endpointTypes.map Prod.fst).Perm (drainedSrcs s.calls).dedup :=
    (List.perm_ext_iff_of_nodup hnodup (List.nodup_dedup _)).2
      (fun k => by rw [h3 k, List.mem_dedup])
  have hlen : s.endpointTypes.length = (drainedSrcs s.calls).dedup.length := by
    have := hperm.length_eq
    simpa using this
  have hle : (drainedSrcs s.calls).dedup.length ≤ (drainedSrcs s.calls).length :=
    (List.dedup_sublist _).length_le
  have hcount : (drainedSrcs s.calls).length < 2 ^ 31 →
      s.numDest = (drainedSrcs s.calls).length := by
    intro hlt
    rw [h1, countUp_of_inRange _ 0 (by norm_num) (by
      have : ((drainedSrcs s.calls).length : Int) < 2 ^ 31 := by exact_mod_cast hlt
      simpa using this)]
    simp
  refine ⟨hlen, by omega, hcount, ?_⟩
  intro hlt
  show s.numDest = (s.endpointTypes.length : Int) ↔ (drainedSrcs s.calls).Nodup
  rw [hcount hlt, hlen]
  constructor
  · intro heq
    have heq1 : (drainedSrcs s.calls).dedup.length = (drainedSrcs s.calls).length := by
      exact_mod_cast heq.symm
    have := (List.dedup_sublist (drainedSrcs s.calls)).eq_of_length heq1
    exact List.dedup_eq_self.1 this
  · intro hnd
    rw [List.dedup_eq_self.2 hnd]

/-- C6, as amended.  In every state an adapter of either class reaches from
construction by any sequence of operations (init with any pending
initialisation messages, send, tick, receive notification, setup,
setMsgHandler), the Discovery Table has one entry for each distinct source
address among the announcements drained so far, and `getNumDestinations()`
returns the number of announcements drained (while that is below `2 ^ 31`):
it is at least the number of entries of the table, and equal to it exactly
when the drained announcements have pairwise distinct source addresses. -/
theorem peer_count_counts_announcements {T : Type} (net : SimpleNetwork T) (fuel : Nat)
    (t0 : T) (ops : List Op) :
    CountsAnnouncements KrustyBusIFace.getNumDestinations
        (KrustyBusIFace.run net fuel ops (construct t0)).state ∧
      CountsAnnouncements KrustyBusMemIFace.getNumDestinations
        (KrustyBusMemIFace.run net fuel ops (construct t0)).state := by
  have h0 : TableInv (construct t0) := by
    refine ⟨rfl, by simp [construct], ?_⟩
    intro k
    simp [construct, drainedSrcs, drained]
  rw [run_eq_runAs, memRun_eq_runAs]
  exact ⟨tableInv_counts _ (tableInv_runAs KB_HOST net fuel ops _ h0),
    tableInv_counts _ (tableInv_runAs KB_MEM net fuel ops _ h0)⟩

/-- Counterexample to C6 as stated: after one `init` that drains two
announcements from the same address 7, `getNumDestinations()` returns 2 and the
Discovery Table has 1 entry. -/
theorem peer_count_exceeds_table :
    (KrustyBusIFace.run scriptNet 3 [Op.init 0 (envelope 0 0)] repeatedPeerNic).isOk = true ∧
      KrustyBusIFace.getNumDestinations
        (KrustyBusIFace.run scriptNet 3 [Op.init 0 (envelope 0 0)] repeatedPeerNic).state = 2 ∧
      (KrustyBusIFace.run scriptNet 3 [Op.init 0 (envelope 0 0)] repeatedPeerNic).state.endpointTypes
        = [(7, KB_MEM)] ∧
      KrustyBusIFace.getNumDestinations
        (KrustyBusIFace.run scriptNet 3 [Op.init 0 (envelope 0 0)] repeatedPeerNic).state ≠
        ((KrustyBusIFace.run scriptNet 3 [Op.init 0 (envelope 0 0)]
          repeatedPeerNic).state.endpointTypes.length : Int) := by
  decide


/-! ### Receive notification, `setup`, and the gate of `send` (C7, C8, C10) -/

theorem msgNotify_notifyContract {T : Type} (net : SimpleNetwork T) :
    NotifyContract net (KrustyBusIFace.msgNotify net) := by
  intro sends vn s h hm
  rcases hr : net.recv 0 s.iFace with ⟨o, t⟩
  cases o with
  | none =>
    have e : KrustyBusIFace.msgNotify net sends vn s =
        Outcome.ok true { s with iFace := t, calls := s.calls ++ [Call.recv 0 none] } := by
      simp only [KrustyBusIFace.msgNotify, hr]
    rw [e]
    refine ⟨by simp, by simp, fun _ => rfl, ⟨[Call.recv 0 none], rfl, rfl, by simp [delivered]⟩,
      ⟨rfl, rfl, 0, Nat.zero_le _, by simp [Outcome.state]⟩, fun _ => rfl, ?_⟩
    intro e1 s1 he
    cases he
  | some req =>
    cases hp : req.payload with
    | none =>
      have e : KrustyBusIFace.msgNotify net sends vn s =
          Outcome.fatal FatalError.nullEvent
            { s with iFace := t, calls := s.calls ++ [Call.recv 0 (some req)] } := by
        simp only [KrustyBusIFace.msgNotify, hr, hp]
      rw [e]
      refine ⟨?_, ?_, by simp, ⟨[Call.recv 0 (some req)], rfl, rfl, by simp [delivered]⟩,
        ⟨rfl, rfl, 0, Nat.zero_le _, by simp [Outcome.state]⟩, fun _ => rfl, ?_⟩
      · intro req1 h1 _
        simp only [Option.some.injEq] at h1
        subst h1
        rfl
      · intro req1 ev h1 h2
        simp only [Option.some.injEq] at h1
        subst h1
        rw [hp] at h2
        cases h2
      · intro e1 s1 he
        simp only [Outcome.fatal.injEq] at he
        exact Or.inl ⟨he.1.symm, req, rfl, hp⟩
    | some ev =>
      have e : KrustyBusIFace.msgNotify net sends vn s =
          (KrustyBusIFace.callback net sends
            { s with iFace := t,
                     calls := s.calls ++ [Call.recv 0 (some req)] ++
                       [Call.handler h ev] }).returning true := by
        simp only [KrustyBusIFace.msgNotify, hr, hp, hm]
      obtain ⟨⟨n, hn, hst⟩, hall, hfat, _, _⟩ := callback_spec net sends
        { s with iFace := t,
                 calls := s.calls ++ [Call.recv 0 (some req)] ++ [Call.handler h ev] }
      rw [e]
      refine ⟨?_, ?_, by simp, ⟨[Call.recv 0 (some req), Call.handler h ev], ?_, rfl,
        by simp [delivered]⟩, ⟨?_, ?_, n, hn, ?_⟩, ?_, ?_⟩
      · intro req1 h1 h2
        simp only [Option.some.injEq] at h1
        subst h1
        rw [hp] at h2
        cases h2
      · intro req1 ev1 h1 h2
        simp only [Option.some.injEq] at h1
        subst h1
        rw [hp] at h2
        simp only [Option.some.injEq] at h2
        subst h2
        refine ⟨⟨s.sendQ ++ (sends.take n).map (queued (net.getEndpointID t)),
          by rw [returning_state, hst]; simp⟩, fun hres => ?_⟩
        rw [hall hres]
        simp [Outcome.returning]
      · rw [returning_state, hst]
        simp
      · rw [returning_state, hst]
      · rw [returning_state, hst]
      · rw [returning_state, hst]
      · intro hnil
        subst hnil
        rw [returning_state, hst]
        simp
      · intro e1 s1 he
        right
        cases hcb : KrustyBusIFace.callback net sends
            { s with iFace := t,
                     calls := s.calls ++ [Call.recv 0 (some req)] ++ [Call.handler h ev] } with
        | ok r s2 =>
          rw [hcb] at he
          cases he
        | fatal e2 s2 =>
          rw [hcb] at he
          simp only [Outcome.returning, Outcome.fatal.injEq] at he
          obtain ⟨he1, he2⟩ := he
          subst he1
          exact hfat e2 s2 hcb
        | undefined s2 =>
          rw [hcb] at he
          cases he
        | fuel s2 =>
          rw [hcb] at he
          cases he

theorem handler_stepAs {T : Type} (tag : Nat) (net : SimpleNetwork T) (fuel : Nat) (op : Op)
    (s : NicState T) (hop : ∀ h, op ≠ Op.setMsgHandler h) :
    (stepAs tag net fuel op s).state.msgHandler = s.msgHandler := by
  cases op with
  | setMsgHandler handler => exact absurd rfl (hop handler)
  | init phase fresh =>
    obtain ⟨_, _, _, _, _, _, _, hm⟩ :=
      initLoop_frame net fuel (announceAs tag net phase fresh s)
    simp only [stepAs]
    rw [hm]
    cases hready : net.isNetworkInitialized (net.init phase s.iFace) <;>
      cases hflag : s.initBroadcastSent <;> simp [announceAs, hready, hflag]
  | setup =>
    cases hm : s.msgHandler <;> simp [stepAs, KrustyBusIFace.setup, hm, Outcome.state]
  | send event destination =>
    by_cases hs : event.getSrc = -1 <;> simp [stepAs, KrustyBusIFace.send, hs, Outcome.state]
  | clock cycle =>
    obtain ⟨n, t1, cs, _, hclock, _, _, _⟩ := clock_tickContract net cycle s
    simp [stepAs, hclock, Outcome.void, Outcome.state]
  | msgNotify vn sends =>
    obtain ⟨cs, q, hst, _⟩ := msgNotify_frame net sends vn s
    simp only [stepAs, void_state, hst]

theorem setupContract_as {T : Type} (tag : Nat) (net : SimpleNetwork T) (fuel : Nat) :
    SetupContract (T := T) KrustyBusIFace.setMsgHandler KrustyBusIFace.setup
      (stepAs tag net fuel) := by
  refine ⟨?_, fun t => rfl, fun h s => rfl, fun op s hop => handler_stepAs tag net fuel op s hop⟩
  intro s
  cases hm : s.msgHandler <;> simp [KrustyBusIFace.setup, hm, Outcome.state]


/-- C7, as amended.  Receive notification (`msgNotify`) of either adapter class,
in every state with a registered callback, against every transport and
whatever `send` calls the callback makes on the adapter while it runs: it
calls `recv(0)` once, so pulls at most one message from channel 0; when the
delivery has no payload it ends in the fatal error of `msgNotify` and the
callback is not invoked; when it has a payload, the callback is invoked exactly
once, with that event; when nothing is pending nothing is invoked and no error
is raised; it returns `true` unless the delivery has no payload or a `send`
made by the callback is fatal.  The Discovery Table and the peer counter are
unchanged, and `msgNotify` queues nothing itself: the outbound queue
afterwards is the queue before followed by the requests of the `send` calls
the callback made, so unchanged when the callback sends nothing. -/
theorem msgNotify_delivers_at_most_one {T : Type} (net : SimpleNetwork T) :
    NotifyContract net (KrustyBusIFace.msgNotify net) ∧
      NotifyContract net (KrustyBusMemIFace.msgNotify net) := by
  have e : KrustyBusMemIFace.msgNotify net = KrustyBusIFace.msgNotify net := by
    funext sends vn s
    exact memMsgNotify_eq net sends vn s
  rw [e]
  exact ⟨msgNotify_notifyContract net, msgNotify_notifyContract net⟩

/-- Witness of C7 as amended: with callback 1 registered and a read request from
address 3 pending, one notification during which the callback sends back a
reply returns `true` after one `recv(0)` and one invocation of the callback
with the event of that request, and the reply is queued. -/
theorem msgNotify_delivers_at_most_one_witness :
    listeningNic.msgHandler = some 1 ∧
      KrustyBusIFace.msgNotify scriptNet [({ envelope KB_MEM 5 with Opcode := KB_WRITE }, 3)] 0
          listeningNic =
        Outcome.ok true
          { listeningNic with
            iFace := idle 5 0,
            calls := [Call.recv 0 (some (carrying { envelope KB_HOST 3 with Opcode := KB_READ })),
                      Call.handler 1 { envelope KB_HOST 3 with Opcode := KB_READ }],
            sendQ := [{ dest := 3, src := 5,
                        payload := some { envelope KB_MEM 5 with Opcode := KB_WRITE } }] } :=
  ⟨rfl, (((msgNotify_delivers_at_most_one scriptNet).1
    [({ envelope KB_MEM 5 with Opcode := KB_WRITE }, 3)] 0 listeningNic 1 rfl).2.1
    (carrying { envelope KB_HOST 3 with Opcode := KB_READ })
    { envelope KB_HOST 3 with Opcode := KB_READ } rfl rfl).2 (by decide)⟩

/-- Counterexample to C7 as stated: with callback 1 registered and a read request
pending, the callback answers by calling `send`; the notification returns
`true` without error, and the outbound queue, empty before, holds the reply
afterwards. -/
theorem msgNotify_callback_queues_reply :
    listeningNic.sendQ = [] ∧
      (KrustyBusIFace.msgNotify scriptNet [({ envelope KB_MEM 5 with Opcode := KB_WRITE }, 3)] 0
          listeningNic).isOk = true ∧
      (KrustyBusIFace.msgNotify scriptNet [({ envelope KB_MEM 5 with Opcode := KB_WRITE }, 3)] 0
          listeningNic).state.sendQ =
        [{ dest := 3, src := 5,
           payload := some { envelope KB_MEM 5 with Opcode := KB_WRITE } }] ∧
      ¬ NotifyLeavesQueue (KrustyBusIFace.msgNotify scriptNet) := by
  refine ⟨rfl, by decide, by decide, ?_⟩
  intro hclaim
  have hok : (KrustyBusIFace.msgNotify scriptNet
      [({ envelope KB_MEM 5 with Opcode := KB_WRITE }, 3)] 0 listeningNic).isOk = true := by
    decide
  obtain ⟨s1, h1, h2, _⟩ := hclaim [({ envelope KB_MEM 5 with Opcode := KB_WRITE }, 3)] 0
    listeningNic 1 rfl (by
      intro e s0 he
      rw [he] at hok
      cases hok)
  have h3 : (KrustyBusIFace.msgNotify scriptNet
      [({ envelope KB_MEM 5 with Opcode := KB_WRITE }, 3)] 0 listeningNic).state.sendQ ≠ [] := by
    decide
  rw [h1] at h3
  exact h3 h2

/-- C8. Member `setup()` of either adapter class, in every state: it raises the
fatal configuration error if and only if no callback is registered
(`msgHandler` is null, as it is after construction and until `setMsgHandler` is
given a handler that is not null; only `setMsgHandler` changes it), and
whether it returns or aborts, no field of the adapter is changed. -/
theorem setup_fatal_iff_no_callback {T : Type} (net : SimpleNetwork T) (fuel : Nat) :
    SetupContract (T := T) KrustyBusIFace.setMsgHandler KrustyBusIFace.setup
        (KrustyBusIFace.step net fuel) ∧
      SetupContract (T := T) KrustyBusMemIFace.setMsgHandler KrustyBusMemIFace.setup
        (KrustyBusMemIFace.step net fuel) := by
  have e1 : KrustyBusIFace.step net fuel = stepAs KB_HOST net fuel := by
    funext op s
    exact step_eq_stepAs net fuel op s
  have e2 : KrustyBusMemIFace.step net fuel = stepAs KB_MEM net fuel := by
    funext op s
    exact memStep_eq_stepAs net fuel op s
  rw [e1, e2]
  exact ⟨setupContract_as KB_HOST net fuel, setupContract_as KB_MEM net fuel⟩

/-- Counterexample to C10 as stated.  An adapter whose own address is still `-1`
sends an event whose source is 5: `send` returns and queues it.  An adapter
whose own address is 5 sends an event whose source is `-1`: `send` ends in its
fatal error. -/
theorem send_not_gated_on_own_address :
    ¬ GatedOnOwnAddress (KrustyBusIFace.getAddress scriptNet) (KrustyBusIFace.send scriptNet)
        (envelope KB_HOST 5) 9 (construct (idle (-1) 0)) ∧
      ¬ GatedOnOwnAddress (KrustyBusIFace.getAddress scriptNet) (KrustyBusIFace.send scriptNet)
        (envelope KB_HOST (-1)) 9 (construct (idle 5 0)) := by
  constructor
  · intro h
    obtain ⟨s1, h1⟩ := h.1 rfl
    simp [KrustyBusIFace.send, KrustyBusEvent.getSrc, envelope] at h1
  · intro h
    obtain ⟨s1, h1, _⟩ := h.2 (by decide)
    simp [KrustyBusIFace.send, KrustyBusEvent.getSrc, envelope] at h1

/-- C10, as amended.  Member `send` of either adapter class is gated on the source
address of the event, not on the adapter's own address: for every adapter,
destination and event whose source address is the adapter's own address
(`getAddress()`), `send` raises the protocol-violation fatal error if that
address is still `-1`, and returns with the event queued if it is resolved. -/
theorem send_gated_on_event_source {T : Type} (net : SimpleNetwork T) (event : KrustyBusEvent)
    (destination : Int) (s : NicState T)
    (h : event.getSrc = KrustyBusIFace.getAddress net s) :
    GatedOnOwnAddress (KrustyBusIFace.getAddress net) (KrustyBusIFace.send net) event
        destination s ∧
      GatedOnOwnAddress (KrustyBusMemIFace.getAddress net) (KrustyBusMemIFace.send net) event
        destination s := by
  have key : GatedOnOwnAddress (KrustyBusIFace.getAddress net) (KrustyBusIFace.send net) event
      destination s := by
    constructor
    · intro ha
      exact ⟨s, ((send_sendContract net event destination s).2.1 (by rw [h, ha])).1⟩
    · intro ha
      exact ⟨_, (send_sendContract net event destination s).2.2 (by rw [h]; exact ha), rfl⟩
  exact ⟨key, key⟩

/-- Witness of C10 as amended: the adapter at address 5 sends an event whose
source is 5. -/
theorem send_gated_on_event_source_witness :
    (envelope KB_HOST 5).getSrc = KrustyBusIFace.getAddress scriptNet sampleNic ∧
      GatedOnOwnAddress (KrustyBusIFace.getAddress scriptNet) (KrustyBusIFace.send scriptNet)
        (envelope KB_HOST 5) 9 sampleNic ∧
      GatedOnOwnAddress (KrustyBusMemIFace.getAddress scriptNet)
        (KrustyBusMemIFace.send scriptNet) (envelope KB_HOST 5) 9 sampleNic :=
  ⟨rfl, send_gated_on_event_source scriptNet (envelope KB_HOST 5) 9 sampleNic rfl⟩


/-! ### Serialization round trip (C9) -/

theorem length_bytesLE (w x : Nat) : (bytesLE w x).length = w := by
  induction w generalizing x with
  | zero => rfl
  | succ w ih => simp [bytesLE, ih]

theorem ofBytesLE_bytesLE (w x : Nat) : ofBytesLE (bytesLE w x) = x % 256 ^ w := by
  induction w generalizing x with
  | zero => simp [bytesLE, ofBytesLE, Nat.mod_one]
  | succ w ih =>
    rw [pow_succ', Nat.mod_mul]
    simp [bytesLE, ofBytesLE, ih]

theorem serUInt_pack (w : Nat) (buf : List Nat) (x : Nat) :
    serUInt w { mode := SerMode.PACK, buf := buf } x =
      some ({ mode := SerMode.PACK, buf := buf ++ bytesLE w x }, x) := rfl

theorem serUInt_unpack (w x y : Nat) (rest : List Nat) :
    serUInt w { mode := SerMode.UNPACK, buf := bytesLE w x ++ rest } y =
      some ({ mode := SerMode.UNPACK, buf := rest }, x % 256 ^ w) := by
  have hl := length_bytesLE w x
  simp [serUInt, hl, List.take_left' hl, List.drop_left' hl, ofBytesLE_bytesLE]

theorem serInt64_unpack (x y : Int) (rest : List Nat) (h : -(2 ^ 63 : Int) ≤ x)
    (h1 : x < 2 ^ 63) :
    serInt64 { mode := SerMode.UNPACK, buf := bytesLE 8 (x % 2 ^ 64).toNat ++ rest } y =
      some ({ mode := SerMode.UNPACK, buf := rest }, x) := by
  have hl := length_bytesLE 8 (x % 2 ^ 64).toNat
  have hn : ((x % 2 ^ 64).toNat : Int) = x % 2 ^ 64 :=
    Int.toNat_of_nonneg (Int.emod_nonneg _ (by norm_num))
  have hlt : (x % 2 ^ 64).toNat < 256 ^ 8 := by
    have : x % 2 ^ 64 < 2 ^ 64 := Int.emod_lt_of_pos _ (by norm_num)
    omega
  simp only [serInt64, hl, List.take_left' hl, List.drop_left' hl, ofBytesLE_bytesLE,
    Nat.mod_eq_of_lt hlt, le_refl, if_true, List.length_append]
  simp only [Nat.le_add_right, if_true, Option.some.injEq, Prod.mk.injEq, true_and]
  split <;> omega

theorem event_unpack (base rest : List Nat) :
    Event.serialize_order base { mode := SerMode.UNPACK, buf := base ++ rest } =
      some { mode := SerMode.UNPACK, buf := rest } := by
  simp [Event.serialize_order]

theorem serialize_eq (base : List Nat) (e : KrustyBusEvent) :
    serialize base e = some (wireFormat base e) := by
  simp [serialize, KrustyBusEvent.serialize_order, Event.serialize_order, serUInt, serInt64,
    wireFormat]

theorem deserialize_wire (base : List Nat) (e blank : KrustyBusEvent) (h : e.InRange) :
    deserialize base (wireFormat base e) blank =
      some { blank with Opcode := e.Opcode, Size := e.Size, Addr := e.Addr, Data := e.Data,
                        Src := e.Src } := by
  obtain ⟨h1, h2, _, h4, h5, h6, h7⟩ := h
  have e1 : e.Opcode % 256 ^ 1 = e.Opcode := Nat.mod_eq_of_lt (by omega)
  have e2 : e.Size % 256 ^ 1 = e.Size := Nat.mod_eq_of_lt (by omega)
  have e4 : e.Addr % 256 ^ 8 = e.Addr := Nat.mod_eq_of_lt (by omega)
  have e5 : e.Data % 256 ^ 8 = e.Data := Nat.mod_eq_of_lt (by omega)
  simp only [deserialize, KrustyBusEvent.serialize_order, wireFormat, event_unpack,
    serUInt_unpack, e1, e2, e4, e5]
  have hs := serInt64_unpack e.Src blank.Src [] h6 h7
  simp only [List.append_nil] at hs
  rw [hs]
  rfl

/-- C9. Serialization round trip: for every envelope whose fields are in the range
of their types, `serialize_order` in `PACK` mode writes the bytes of the base
class followed by opcode, size, address, data and source address, in this
order, and `serialize_order` in `UNPACK` mode on these bytes yields an envelope
whose opcode, size, address, data and source address are those of the
original. -/
theorem serialize_round_trip (base : List Nat) (e blank : KrustyBusEvent) (h : e.InRange) :
    ∃ (bytes : List Nat) (e1 : KrustyBusEvent),
      serialize base e = some bytes ∧ bytes = wireFormat base e ∧
      deserialize base bytes blank = some e1 ∧
      e1.getOpcode = e.getOpcode ∧ e1.getSize = e.getSize ∧ e1.getAddr = e.getAddr ∧
      e1.getData = e.getData ∧ e1.getSrc = e.getSrc :=
  ⟨wireFormat base e, _, serialize_eq base e, rfl, deserialize_wire base e blank h,
    rfl, rfl, rfl, rfl, rfl⟩

/-- Witness of C9, the example of the specification: opcode write, address
`0x1000`, size 8, data `0xDEADBEEF`, source address 3. -/
theorem serialize_round_trip_witness :
    sampleWrite.InRange ∧
      ∃ (bytes : List Nat) (e1 : KrustyBusEvent),
        serialize [] sampleWrite = some bytes ∧ bytes = wireFormat [] sampleWrite ∧
        deserialize [] bytes (envelope 0 0) = some e1 ∧
        e1.getOpcode = sampleWrite.getOpcode ∧ e1.getSize = sampleWrite.getSize ∧
        e1.getAddr = sampleWrite.getAddr ∧ e1.getData = sampleWrite.getData ∧
        e1.getSrc = sampleWrite.getSrc :=
  ⟨by simp [KrustyBusEvent.InRange, sampleWrite, KB_WRITE, KB_HOST],
    serialize_round_trip [] sampleWrite (envelope 0 0)
      (by simp [KrustyBusEvent.InRange, sampleWrite, KB_WRITE, KB_HOST])⟩

/-! ### The Discovery Table over one operation (C11) -/

theorem mapFind_mapAssign (a k : Int) (v : Nat) (m : List (Int × Nat)) :
    mapFind a (mapAssign k v m) = if a = k then some v else mapFind a m := by
  induction m with
  | nil => simp [mapAssign, mapFind]
  | cons p m ih =>
    obtain ⟨k1, v1⟩ := p
    by_cases h : k = k1
    · subst h
      by_cases h2 : a = k <;> simp [mapAssign, mapFind, h2]
    · by_cases h1 : k < k1
      · by_cases h2 : a = k <;> simp [mapAssign, mapFind, h, h1, h2]
      · by_cases h2 : a = k
        · subst h2
          simp [mapAssign, mapFind, h, h1, ih]
        · by_cases h3 : a = k1
          · subst h3
            simp [mapAssign, mapFind, h, h1, h2]
          · simp [mapAssign, mapFind, h, h1, h2, h3, ih]

theorem mapFind_recordAll (a : Int) (ms : List KrustyBusEvent) (m : List (Int × Nat)) :
    mapFind a (recordAll ms m) = entryAfter a ms (mapFind a m) := by
  induction ms generalizing m with
  | nil => rfl
  | cons ev ms ih =>
    have h := ih (mapAssign ev.getSrc ev.getType m)
    simp only [recordAll, List.foldl_cons, entryAfter] at h ⊢
    rw [h, mapFind_mapAssign]
    by_cases h2 : a = ev.getSrc
    · simp [h2]
    · have h3 : ¬ ev.getSrc = a := fun h4 => h2 h4.symm
      simp [h2, h3]

theorem entryAfter_isSome (a : Int) (ms : List KrustyBusEvent) (t : Nat) :
    ∃ t1, entryAfter a ms (some t) = some t1 := by
  induction ms generalizing t with
  | nil => exact ⟨t, rfl⟩
  | cons ev ms ih =>
    by_cases h : ev.getSrc = a
    · simpa [entryAfter, h] using ih ev.getType
    · simpa [entryAfter, h] using ih t

theorem entryAfter_same (a : Int) (ms : List KrustyBusEvent) (t : Nat)
    (h : ∀ ev ∈ ms, ev.getSrc = a → ev.getType = t) : entryAfter a ms (some t) = some t := by
  induction ms with
  | nil => rfl
  | cons ev ms ih =>
    have ih1 := ih (fun e he => h e (List.mem_cons_of_mem _ he))
    by_cases h1 : ev.getSrc = a
    · have := h ev (List.mem_cons_self _ _) h1
      simpa [entryAfter, h1, this] using ih1
    · simpa [entryAfter, h1] using ih1

theorem drainedEvents_append (a b : List Call) :
    drainedEvents (a ++ b) = drainedEvents a ++ drainedEvents b := by
  simp [drainedEvents, drained_append, List.filterMap_append]

theorem clockLoop_noDrain {T : Type} (net : SimpleNetwork T) (q : List Request) (t : T) :
    drained (KrustyBusIFace.clockLoop net q t).2.2 = [] := by
  induction q generalizing t with
  | nil => rfl
  | cons r q ih =>
    rcases h : net.spaceToSend 0 256 t with ⟨b, t1⟩
    cases b with
    | false => simp [KrustyBusIFace.clockLoop, h, drained]
    | true =>
      rcases h1 : net.send r 0 t1 with ⟨a, t2⟩
      cases a with
      | false => simp [KrustyBusIFace.clockLoop, h, h1, drained]
      | true =>
        have := ih t2
        simpa [KrustyBusIFace.clockLoop, h, h1, drained] using this

theorem initLoop_table {T : Type} (net : SimpleNetwork T) (fuel : Nat) (s : NicState T) :
    ∃ cs, (KrustyBusIFace.initLoop net fuel s).state.calls = s.calls ++ cs ∧
      (KrustyBusIFace.initLoop net fuel s).state.endpointTypes =
        recordAll (drainedEvents cs) s.endpointTypes := by
  induction fuel generalizing s with
  | zero => exact ⟨[], by simp [KrustyBusIFace.initLoop, Outcome.state], rfl⟩
  | succ n ih =>
    rcases h : net.recvInitData s.iFace with ⟨o, t⟩
    cases o with
    | none =>
      exact ⟨[Call.recvInitData none], by simp [KrustyBusIFace.initLoop, h, Outcome.state],
        by simp [KrustyBusIFace.initLoop, h, Outcome.state, drainedEvents, drained, recordAll]⟩
    | some req =>
      cases hp : req.payload with
      | none =>
        exact ⟨[Call.recvInitData (some req)],
          by simp [KrustyBusIFace.initLoop, h, hp, Outcome.state],
          by simp [KrustyBusIFace.initLoop, h, hp, Outcome.state, drainedEvents, drained,
            recordAll]⟩
      | some ev =>
        obtain ⟨cs, hc, ht⟩ := ih
          { s with iFace := t, calls := s.calls ++ [Call.recvInitData (some req)],
                   endpointTypes := mapAssign ev.getSrc ev.getType s.endpointTypes,
                   numDest := wrapInt32 (s.numDest + 1) }
        refine ⟨Call.recvInitData (some req) :: cs, ?_, ?_⟩
        · simpa [KrustyBusIFace.initLoop, h, hp] using hc
        · simpa [KrustyBusIFace.initLoop, h, hp, drainedEvents, drained, recordAll] using ht

theorem table_stepAs {T : Type} (tag : Nat) (net : SimpleNetwork T) (fuel : Nat) (op : Op)
    (s : NicState T) :
    ∃ cs, (stepAs tag net fuel op s).state.calls = s.calls ++ cs ∧
      (stepAs tag net fuel op s).state.endpointTypes =
        recordAll (drainedEvents cs) s.endpointTypes ∧
      ((∀ phase fresh, op ≠ Op.init phase fresh) → drainedEvents cs = []) := by
  cases op with
  | setMsgHandler handler => exact ⟨[], by simp [stepAs, Outcome.state, KrustyBusIFace.setMsgHandler], rfl, fun _ => rfl⟩
  | init phase fresh =>
    obtain ⟨cs, hc, ht⟩ := initLoop_table net fuel (announceAs tag net phase fresh s)
    have hann : ∃ cs0, (announceAs tag net phase fresh s).calls = s.calls ++ cs0 ∧
        drainedEvents cs0 = [] ∧
        (announceAs tag net phase fresh s).endpointTypes = s.endpointTypes := by
      cases hready : net.isNetworkInitialized (net.init phase s.iFace) <;>
        cases hflag : s.initBroadcastSent <;>
          simp [announceAs, hready, hflag, drainedEvents, drained]
    obtain ⟨cs0, hc0, hd0, ht0⟩ := hann
    refine ⟨cs0 ++ cs, ?_, ?_, fun hne => absurd rfl (hne phase fresh)⟩
    · simp only [stepAs]
      rw [hc, hc0, List.append_assoc]
    · simp only [stepAs]
      rw [ht, ht0, drainedEvents_append, hd0, List.nil_append]
  | setup =>
    refine ⟨[], ?_, ?_, fun _ => rfl⟩ <;>
      cases hm : s.msgHandler <;>
        simp [stepAs, KrustyBusIFace.setup, hm, Outcome.state, recordAll, drainedEvents, drained]
  | send event destination =>
    refine ⟨[], ?_, ?_, fun _ => rfl⟩ <;>
      by_cases hs : event.getSrc = -1 <;>
        simp [stepAs, KrustyBusIFace.send, hs, Outcome.state, recordAll, drainedEvents, drained]
  | clock cycle =>
    have hd := clockLoop_noDrain net s.sendQ s.iFace
    refine ⟨(KrustyBusIFace.clockLoop net s.sendQ s.iFace).2.2, ?_, ?_, fun _ => ?_⟩
    · simp [stepAs, KrustyBusIFace.clock, Outcome.void, Outcome.state]
    · simp [stepAs, KrustyBusIFace.clock, Outcome.void, Outcome.state, drainedEvents, hd,
        recordAll]
    · simp [drainedEvents, hd]
  | msgNotify vn sends =>
    obtain ⟨cs, q, hst, _, _, hd⟩ := msgNotify_frame net sends vn s
    refine ⟨cs, ?_, ?_, fun _ => by simp [drainedEvents, hd]⟩
    · simp only [stepAs, void_state, hst]
    · simp only [stepAs, void_state, hst]
      simp [drainedEvents, hd, recordAll]

theorem tableKept_as {T : Type} (tag : Nat) (net : SimpleNetwork T) (fuel : Nat) :
    TableKept (stepAs tag net fuel) := by
  intro op s
  obtain ⟨cs, hc, ht, hn⟩ := table_stepAs tag net fuel op s
  have hnew : newCalls s (stepAs tag net fuel op s).state = cs := by
    simp [newCalls, hc]
  rw [hnew, ht]
  refine ⟨fun hne => by rw [hn hne]; rfl, fun a t hat => ?_⟩
  rw [mapFind_recordAll, hat]
  exact ⟨entryAfter_isSome a _ t, entryAfter_same a _ t, rfl⟩

/-- C11, as amended.  For every operation of an adapter of either class (init
with any pending initialisation messages, send, tick, receive notification,
setup, setMsgHandler) and every peer address `a` the Discovery Table maps to an
endpoint type `t` before it: the table still has an entry for `a` afterwards,
so no operation removes one; the entry is still `t` unless the operation is an
`init` that drained an announcement whose source is `a` and whose type is not
`t`, in which case it is the type of the last announcement from `a` drained;
and only `init` changes the table at all. -/
theorem discovery_table_entries_kept {T : Type} (net : SimpleNetwork T) (fuel : Nat) :
    TableKept (KrustyBusIFace.step net fuel) ∧ TableKept (KrustyBusMemIFace.step net fuel) := by
  have e1 : KrustyBusIFace.step net fuel = stepAs KB_HOST net fuel := by
    funext op s
    exact step_eq_stepAs net fuel op s
  have e2 : KrustyBusMemIFace.step net fuel = stepAs KB_MEM net fuel := by
    funext op s
    exact memStep_eq_stepAs net fuel op s
  rw [e1, e2]
  exact ⟨tableKept_as KB_HOST net fuel, tableKept_as KB_MEM net fuel⟩

/-- Witness of C11 as amended: the adapter that knows the memory endpoint at
address 7 still has an entry for address 7 after an `init`. -/
theorem discovery_table_entries_kept_witness :
    mapFind 7 knownPeerNic.endpointTypes = some KB_MEM ∧
      ∃ t1, mapFind 7
        (KrustyBusIFace.step scriptNet 2 (Op.init 0 (envelope 0 0)) knownPeerNic).state.endpointTypes
          = some t1 :=
  ⟨rfl, ((((discovery_table_entries_kept scriptNet 2).1 (Op.init 0 (envelope 0 0))
    knownPeerNic).2) 7 KB_MEM rfl).1⟩

/-- Counterexample to C11 as stated: the table maps address 7 to the memory type;
an `init` drains an announcement from address 7 of type host, and the table
maps address 7 to the host type afterwards. -/
theorem discovery_table_entry_overwritten :
    mapFind 7 knownPeerNic.endpointTypes = some KB_MEM ∧
      mapFind 7
        (KrustyBusIFace.step scriptNet 2 (Op.init 0 (envelope 0 0)) knownPeerNic).state.endpointTypes
          = some KB_HOST ∧
      ¬ AppendOnly (KrustyBusIFace.step scriptNet 2) := by
  refine ⟨rfl, by decide, ?_⟩
  intro h
  have h1 := h (Op.init 0 (envelope 0 0)) knownPeerNic 7 KB_MEM rfl
  revert h1
  decide

/-! ### The two classes side by side (C12) -/

theorem clockLoop_rel {T : Type} (net : SimpleNetwork T) (R : T → T → Prop)
    (hR : SameAnswers net R) (q : List Request) (t1 t2 : T) (h : R t1 t2) :
    (KrustyBusIFace.clockLoop net q t1).1 = (KrustyBusIFace.clockLoop net q t2).1 ∧
      R (KrustyBusIFace.clockLoop net q t1).2.1 (KrustyBusIFace.clockLoop net q t2).2.1 ∧
      (KrustyBusIFace.clockLoop net q t1).2.2 = (KrustyBusIFace.clockLoop net q t2).2.2 := by
  induction q generalizing t1 t2 with
  | nil => exact ⟨rfl, h, rfl⟩
  | cons r q ih =>
    obtain ⟨ha, hs⟩ := hR.spaceToSend 0 256 t1 t2 h
    rcases h1 : net.spaceToSend 0 256 t1 with ⟨b1, u1⟩
    rcases h2 : net.spaceToSend 0 256 t2 with ⟨b2, u2⟩
    rw [h1, h2] at ha hs
    simp only at ha hs
    subst ha
    cases b1 with
    | false => simpa [KrustyBusIFace.clockLoop, h1, h2] using hs
    | true =>
      obtain ⟨hb, ht⟩ := hR.send r 0 u1 u2 hs
      rcases h3 : net.send r 0 u1 with ⟨c1, v1⟩
      rcases h4 : net.send r 0 u2 with ⟨c2, v2⟩
      rw [h3, h4] at hb ht
      simp only at hb ht
      subst hb
      cases c1 with
      | false => simpa [KrustyBusIFace.clockLoop, h1, h2, h3, h4] using ht
      | true =>
        obtain ⟨i1, i2, i3⟩ := ih v1 v2 ht
        simp only [KrustyBusIFace.clockLoop, h1, h2, h3, h4]
        exact ⟨i1, i2, by rw [i3]⟩

theorem initLoop_rel {T : Type} (net : SimpleNetwork T) (R : T → T → Prop)
    (hR : SameAnswers net R) (fuel : Nat) (s1 s2 : NicState T) (h : StateRel R s1 s2) :
    OutcomeRel R (KrustyBusIFace.initLoop net fuel s1) (KrustyBusIFace.initLoop net fuel s2) := by
  induction fuel generalizing s1 s2 with
  | zero => exact h
  | succ n ih =>
    obtain ⟨ha, hs⟩ := hR.recvInitData s1.iFace s2.iFace h.iFace
    rcases h1 : net.recvInitData s1.iFace with ⟨o1, u1⟩
    rcases h2 : net.recvInitData s2.iFace with ⟨o2, u2⟩
    rw [h1, h2] at ha hs
    simp only at ha hs
    subst ha
    cases o1 with
    | none =>
      simp only [KrustyBusIFace.initLoop, h1, h2, OutcomeRel, true_and]
      exact ⟨hs, h.msgHandler, h.initBroadcastSent, h.numDest, h.sendQ, h.endpointTypes,
        by simp [h.calls]⟩
    | some req =>
      cases hp : req.payload with
      | none =>
        simp only [KrustyBusIFace.initLoop, h1, h2, hp, OutcomeRel]
        exact ⟨hs, h.msgHandler, h.initBroadcastSent, h.numDest, h.sendQ, h.endpointTypes,
          by simp [h.calls]⟩
      | some ev =>
        simp only [KrustyBusIFace.initLoop, h1, h2, hp]
        apply ih
        exact ⟨hs, h.msgHandler, h.initBroadcastSent, by simp [h.numDest], h.sendQ,
          by simp [h.endpointTypes], by simp [h.calls]⟩

theorem announceAs_rel {T : Type} (tag1 tag2 : Nat) (net : SimpleNetwork T) (R : T → T → Prop)
    (hR : SameAnswers net R) (phase : Nat) (fresh : KrustyBusEvent) (s1 s2 : NicState T)
    (h : StateRel R s1 s2) :
    StateRel R (announceAs tag1 net phase fresh s1) (announceAs tag2 net phase fresh s2) := by
  have hi := hR.init phase s1.iFace s2.iFace h.iFace
  have hready := hR.isNetworkInitialized _ _ hi
  have hid := hR.getEndpointID _ _ hi
  have hflag := h.initBroadcastSent
  cases hr : net.isNetworkInitialized (net.init phase s2.iFace) with
  | false =>
    rw [hr] at hready
    simp only [announceAs, hready, hr]
    exact ⟨hi, h.msgHandler, h.initBroadcastSent, h.numDest, h.sendQ, h.endpointTypes,
      by simp [h.calls, eraseType]⟩
  | true =>
    rw [hr] at hready
    cases hf : s2.initBroadcastSent with
    | true =>
      rw [hf] at hflag
      simp only [announceAs, hready, hr, hflag, hf]
      exact ⟨hi, h.msgHandler, by simp [hflag, hf], h.numDest, h.sendQ, h.endpointTypes,
        by simp [h.calls, eraseType]⟩
    | false =>
      rw [hf] at hflag
      have e1 : announceAs tag1 net phase fresh s1 =
          { s1 with
            iFace := net.sendInitData
              { dest := net.INIT_BROADCAST_ADDR, src := net.getEndpointID (net.init phase s1.iFace),
                payload := some ((fresh.setType tag1).setSrc
                  (net.getEndpointID (net.init phase s1.iFace))) } (net.init phase s1.iFace),
            initBroadcastSent := true,
            calls := s1.calls ++ [Call.init phase, Call.isNetworkInitialized true] ++
              [Call.sendInitData
                { dest := net.INIT_BROADCAST_ADDR,
                  src := net.getEndpointID (net.init phase s1.iFace),
                  payload := some ((fresh.setType tag1).setSrc
                    (net.getEndpointID (net.init phase s1.iFace))) }] } := by
        simp [announceAs, hready, hflag]
      have e2 : announceAs tag2 net phase fresh s2 =
          { s2 with
            iFace := net.sendInitData
              { dest := net.INIT_BROADCAST_ADDR, src := net.getEndpointID (net.init phase s2.iFace),
                payload := some ((fresh.setType tag2).setSrc
                  (net.getEndpointID (net.init phase s2.iFace))) } (net.init phase s2.iFace),
            initBroadcastSent := true,
            calls := s2.calls ++ [Call.init phase, Call.isNetworkInitialized true] ++
              [Call.sendInitData
                { dest := net.INIT_BROADCAST_ADDR,
                  src := net.getEndpointID (net.init phase s2.iFace),
                  payload := some ((fresh.setType tag2).setSrc
                    (net.getEndpointID (net.init phase s2.iFace))) }] } := by
        simp [announceAs, hr, hf]
      rw [e1, e2]
      refine ⟨?_, h.msgHandler, rfl, h.numDest, h.sendQ, h.endpointTypes, ?_⟩
      · exact hR.sendInitData _ _ _ _ hi rfl hid
          (by simp [KrustyBusEvent.setType, KrustyBusEvent.setSrc, hid])
      · simp [h.calls, eraseType, KrustyBusEvent.setType, KrustyBusEvent.setSrc, hid]

theorem callback_rel {T : Type} (net : SimpleNetwork T) (R : T → T → Prop)
    (hR : SameAnswers net R) (sends : List (KrustyBusEvent × Int)) (s1 s2 : NicState T)
    (h : StateRel R s1 s2) :
    OutcomeRel R (KrustyBusIFace.callback net sends s1)
      (KrustyBusIFace.callback net sends s2) := by
  induction sends generalizing s1 s2 with
  | nil => exact ⟨rfl, h⟩
  | cons p rest ih =>
    have hid := hR.getEndpointID _ _ h.iFace
    by_cases hs : p.1.getSrc = -1
    · simp only [KrustyBusIFace.callback, KrustyBusIFace.send, hs, if_true, OutcomeRel,
        true_and]
      exact h
    · simp only [KrustyBusIFace.callback, KrustyBusIFace.send, hs, if_false]
      apply ih
      exact ⟨h.iFace, h.msgHandler, h.initBroadcastSent, h.numDest, by simp [h.sendQ, hid],
        h.endpointTypes, h.calls⟩

theorem stepAs_rel {T : Type} (tag1 tag2 : Nat) (net : SimpleNetwork T) (R : T → T → Prop)
    (hR : SameAnswers net R) (fuel : Nat) (op : Op) (s1 s2 : NicState T)
    (h : StateRel R s1 s2) :
    OutcomeRel R (stepAs tag1 net fuel op s1) (stepAs tag2 net fuel op s2) := by
  cases op with
  | setMsgHandler handler =>
    exact ⟨rfl, h.iFace, rfl, h.initBroadcastSent, h.numDest, h.sendQ, h.endpointTypes, h.calls⟩
  | init phase fresh =>
    exact initLoop_rel net R hR fuel _ _ (announceAs_rel tag1 tag2 net R hR phase fresh s1 s2 h)
  | setup =>
    have hm := h.msgHandler
    cases hm2 : s2.msgHandler with
    | none =>
      rw [hm2] at hm
      simp only [stepAs, KrustyBusIFace.setup, hm, hm2, OutcomeRel, true_and]
      exact h
    | some hd =>
      rw [hm2] at hm
      simp only [stepAs, KrustyBusIFace.setup, hm, hm2, OutcomeRel, true_and]
      exact h
  | send event destination =>
    have hid := hR.getEndpointID _ _ h.iFace
    by_cases hs : event.getSrc = -1
    · simp only [stepAs, KrustyBusIFace.send, hs, if_true, OutcomeRel, true_and]
      exact h
    · simp only [stepAs, KrustyBusIFace.send, hs, if_false, OutcomeRel, true_and]
      exact ⟨h.iFace, h.msgHandler, h.initBroadcastSent, h.numDest, by simp [h.sendQ, hid],
        h.endpointTypes, h.calls⟩
  | clock cycle =>
    have hq := h.sendQ
    obtain ⟨c1, c2, c3⟩ := clockLoop_rel net R hR s1.sendQ s1.iFace s2.iFace h.iFace
    rw [hq] at c1 c2 c3
    simp only [stepAs, KrustyBusIFace.clock, Outcome.void, OutcomeRel, true_and]
    rw [hq]
    exact ⟨c2, h.msgHandler, h.initBroadcastSent, h.numDest, c1, h.endpointTypes,
      by simp [h.calls, c3]⟩
  | msgNotify vn sends =>
    obtain ⟨ha, hs⟩ := hR.recv 0 s1.iFace s2.iFace h.iFace
    rcases h1 : net.recv 0 s1.iFace with ⟨o1, u1⟩
    rcases h2 : net.recv 0 s2.iFace with ⟨o2, u2⟩
    rw [h1, h2] at ha hs
    simp only at ha hs
    subst ha
    cases o1 with
    | none =>
      simp only [stepAs, KrustyBusIFace.msgNotify, h1, h2, Outcome.void, OutcomeRel, true_and]
      exact ⟨hs, h.msgHandler, h.initBroadcastSent, h.numDest, h.sendQ, h.endpointTypes,
        by simp [h.calls, eraseType]⟩
    | some req =>
      cases hp : req.payload with
      | none =>
        simp only [stepAs, KrustyBusIFace.msgNotify, h1, h2, hp, Outcome.void, OutcomeRel,
          true_and]
        exact ⟨hs, h.msgHandler, h.initBroadcastSent, h.numDest, h.sendQ, h.endpointTypes,
          by simp [h.calls, eraseType]⟩
      | some ev =>
        have hm := h.msgHandler
        cases hm2 : s2.msgHandler with
        | none =>
          rw [hm2] at hm
          simp only [stepAs, KrustyBusIFace.msgNotify, h1, h2, hp, hm, hm2, Outcome.void,
            OutcomeRel]
          exact ⟨hs, by simp [hm, hm2], h.initBroadcastSent, h.numDest, h.sendQ,
            h.endpointTypes, by simp [h.calls, eraseType]⟩
        | some hd =>
          rw [hm2] at hm
          simp only [stepAs, KrustyBusIFace.msgNotify, h1, h2, hp, hm, hm2, returning_void]
          apply callback_rel net R hR
          exact ⟨hs, by simp [hm, hm2], h.initBroadcastSent, h.numDest, h.sendQ,
            h.endpointTypes, by simp [h.calls, eraseType]⟩

theorem runAs_rel {T : Type} (tag1 tag2 : Nat) (net : SimpleNetwork T) (R : T → T → Prop)
    (hR : SameAnswers net R) (fuel : Nat) (ops : List Op) (s1 s2 : NicState T)
    (h : StateRel R s1 s2) :
    OutcomeRel R (runAs tag1 net fuel ops s1) (runAs tag2 net fuel ops s2) := by
  induction ops generalizing s1 s2 with
  | nil => exact ⟨rfl, h⟩
  | cons op ops ih =>
    have hstep := stepAs_rel tag1 tag2 net R hR fuel op s1 s2 h
    simp only [runAs]
    cases h1 : stepAs tag1 net fuel op s1 <;> cases h2 : stepAs tag2 net fuel op s2 <;>
      rw [h1, h2] at hstep <;> simp only [OutcomeRel] at hstep
    · exact ih _ _ hstep.2
    · exact hstep
    · exact hstep
    · exact hstep

theorem sameMembers {T : Type} (net : SimpleNetwork T) : SameMembers net :=
  ⟨fun _ _ => rfl, fun _ => rfl, fun sends vn s => memMsgNotify_eq net sends vn s,
    fun _ _ _ => rfl,
    fun cycle s => memClock_eq net cycle s, fun _ => rfl, fun _ => rfl,
    fun fuel s => memInitLoop_eq net fuel s⟩

theorem announcesAs_as {T : Type} (tag : Nat) (net : SimpleNetwork T) :
    AnnouncesAs tag net
      (fun fuel phase fresh s =>
        KrustyBusIFace.initLoop net fuel (announceAs tag net phase fresh s)) := by
  intro fuel phase fresh s
  obtain ⟨cs, hc, ha, _⟩ := initLoop_frame net fuel (announceAs tag net phase fresh s)
  simp only [newCalls, hc]
  cases hready : net.isNetworkInitialized (net.init phase s.iFace) <;>
    cases hflag : s.initBroadcastSent <;>
      simp [announceAs, hready, hflag, announced_append, ha, announced,
        KrustyBusEvent.setType, KrustyBusEvent.setSrc]

theorem script_sameAnswers : SameAnswers scriptNet sameButBroadcasts := by
  refine ⟨?_, ?_, ?_, ?_, ?_, ?_, ?_, ?_⟩
  · intro phase t1 t2 h
    simp only [sameButBroadcasts, Script.mk.injEq] at h
    simp [sameButBroadcasts, scriptNet, h]
  · intro t1 t2 h
    simp only [sameButBroadcasts, Script.mk.injEq] at h
    simp [scriptNet, h]
  · intro t1 t2 h
    simp only [sameButBroadcasts, Script.mk.injEq] at h
    simp [scriptNet, h]
  · intro r1 r2 t1 t2 h _ _ _
    simp only [sameButBroadcasts, Script.mk.injEq] at h
    simp [sameButBroadcasts, scriptNet, h]
  · intro t1 t2 h
    simp only [sameButBroadcasts, Script.mk.injEq] at h
    obtain ⟨h1, h2, h3, h4, h5, h6, h7, _, h9⟩ := h
    simp only [scriptNet, h4]
    rcases hl : t2.initInbox with _ | ⟨b, bs⟩ <;>
      simp [sameButBroadcasts, h1, h2, h3, h4, h5, h6, h7, h9, hl]
  · intro vn t1 t2 h
    simp only [sameButBroadcasts, Script.mk.injEq] at h
    obtain ⟨h1, h2, h3, h4, h5, h6, h7, _, h9⟩ := h
    simp only [scriptNet, h5]
    rcases hl : t2.inbox with _ | ⟨b, bs⟩ <;>
      simp [sameButBroadcasts, h1, h2, h3, h4, h5, h6, h7, h9, hl]
  · intro vn bits t1 t2 h
    simp only [sameButBroadcasts, Script.mk.injEq] at h
    obtain ⟨h1, h2, h3, h4, h5, h6, h7, _, h9⟩ := h
    simp only [scriptNet, h6]
    rcases hl : t2.credit with _ | ⟨b, bs⟩ <;>
      simp [sameButBroadcasts, h1, h2, h3, h4, h5, h6, h7, h9, hl]
  · intro r vn t1 t2 h
    simp only [sameButBroadcasts, Script.mk.injEq] at h
    obtain ⟨h1, h2, h3, h4, h5, h6, h7, _, h9⟩ := h
    simp only [scriptNet, h7]
    rcases hl : t2.accept with _ | ⟨b, bs⟩ <;>
      simp [sameButBroadcasts, h1, h2, h3, h4, h5, h6, h7, h9, hl]


/-- C12. Role equivalence.  `KrustyBusIFace` and `KrustyBusMemIFace` are the same
state machine up to the announced tag.  Started from states that agree (equal
states in particular) and driven by the same sequence of operations
(setMsgHandler, init, setup, send, tick, receive notification) against a
transport that gives the same answers whichever tag it is given to broadcast,
the two runs end the same way, with the same returned value or the same
error, and in states with the same callback, broadcast flag, queue, Discovery
Table and peer count and with the same trace of transport calls once the
endpoint type of the announcement is blanked.  Every member but `init` is the
same function in the two classes.  The one announcement an `init` builds has
the destination `INIT_BROADCAST_ADDR`, the adapter's own transport address as
source of the request and of the envelope, and the endpoint type `KB_HOST`
(`0x01`) for `KrustyBusIFace` and `KB_MEM` (`0x02`) for `KrustyBusMemIFace`. -/
theorem role_equivalence {T : Type} (net : SimpleNetwork T) (R : T → T → Prop) (fuel : Nat)
    (ops : List Op) (s1 s2 : NicState T) (hR : SameAnswers net R) (h : StateRel R s1 s2) :
    OutcomeRel R (KrustyBusIFace.run net fuel ops s1) (KrustyBusMemIFace.run net fuel ops s2) ∧
      SameMembers net ∧
      AnnouncesAs KB_HOST net (KrustyBusIFace.init net) ∧
      AnnouncesAs KB_MEM net (KrustyBusMemIFace.init net) := by
  have e : KrustyBusMemIFace.init net =
      fun fuel phase fresh s =>
        KrustyBusIFace.initLoop net fuel (announceAs KB_MEM net phase fresh s) := by
    funext fuel phase fresh s
    simp only [KrustyBusMemIFace.init, memInitLoop_eq]
    rfl
  refine ⟨?_, sameMembers net, announcesAs_as KB_HOST net, ?_⟩
  · rw [run_eq_runAs, memRun_eq_runAs]
    exact runAs_rel KB_HOST KB_MEM net R hR fuel ops s1 s2 h
  · rw [e]
    exact announcesAs_as KB_MEM net

/-- Witness of C12: the sample life of an adapter, run by both classes from the
same freshly constructed state over the scripted transport. -/
theorem role_equivalence_witness :
    SameAnswers scriptNet sameButBroadcasts ∧ StateRel sameButBroadcasts freshNic freshNic ∧
      (OutcomeRel sameButBroadcasts (KrustyBusIFace.run scriptNet 3 sampleLife freshNic)
          (KrustyBusMemIFace.run scriptNet 3 sampleLife freshNic) ∧
        SameMembers scriptNet ∧
        AnnouncesAs KB_HOST scriptNet (KrustyBusIFace.init scriptNet) ∧
        AnnouncesAs KB_MEM scriptNet (KrustyBusMemIFace.init scriptNet)) :=
  ⟨script_sameAnswers, ⟨rfl, rfl, rfl, rfl, rfl, rfl, rfl⟩,
    role_equivalence scriptNet sameButBroadcasts 3 sampleLife freshNic freshNic
      script_sameAnswers ⟨rfl, rfl, rfl, rfl, rfl, rfl, rfl⟩⟩

/-! ### The endpoint type and serialization (C13) -/

theorem serialize_order_type (base : List Nat) (ser ser1 : serializer) (e e1 : KrustyBusEvent)
    (h : KrustyBusEvent.serialize_order base ser e = some (ser1, e1)) : e1.EType = e.EType := by
  unfold KrustyBusEvent.serialize_order at h
  repeat' split at h
  all_goals first
    | (cases h; rfl)
    | cases h

theorem serialize_congr (base : List Nat) (e1 e2 : KrustyBusEvent)
    (h1 : e1.getOpcode = e2.getOpcode) (h2 : e1.getSize = e2.getSize)
    (h3 : e1.getAddr = e2.getAddr) (h4 : e1.getData = e2.getData)
    (h5 : e1.getSrc = e2.getSrc) : serialize base e1 = serialize base e2 := by
  simp only [KrustyBusEvent.getOpcode, KrustyBusEvent.getSize, KrustyBusEvent.getAddr,
    KrustyBusEvent.getData, KrustyBusEvent.getSrc] at h1 h2 h3 h4 h5
  rw [serialize_eq, serialize_eq]
  simp only [wireFormat, h1, h2, h3, h4, h5]

theorem deserialize_type (base bytes : List Nat) (blank e1 : KrustyBusEvent)
    (h : deserialize base bytes blank = some e1) : e1.getType = blank.getType := by
  simp only [deserialize, Option.map_eq_some'] at h
  obtain ⟨⟨ser1, e2⟩, h1, h2⟩ := h
  simp only at h2
  subst h2
  exact serialize_order_type base _ ser1 blank e2 h1

/-- C13. The serialized form of an envelope does not depend on its endpoint type:
two envelopes that agree on opcode, size, address, data and source address
have the same serialized form whatever their `Type` values; deserialization
leaves the `Type` of the envelope it fills as it was, so an announcement that
crosses a serializing hop does not carry the sender's endpoint type, and the
announcements of a host adapter and of a memory adapter at the same address
serialize to the same bytes; `clone()` copies all six fields, `Type`
included. -/
theorem serialized_form_omits_type (base : List Nat) (e1 e2 : KrustyBusEvent)
    (h1 : e1.getOpcode = e2.getOpcode) (h2 : e1.getSize = e2.getSize)
    (h3 : e1.getAddr = e2.getAddr) (h4 : e1.getData = e2.getData)
    (h5 : e1.getSrc = e2.getSrc) :
    serialize base e1 = serialize base e2 ∧
      (∀ (bytes : List Nat) (blank e : KrustyBusEvent),
        deserialize base bytes blank = some e → e.getType = blank.getType) ∧
      (∀ (fresh : KrustyBusEvent) (id : Int),
        serialize base ((fresh.setType KB_HOST).setSrc id) =
          serialize base ((fresh.setType KB_MEM).setSrc id)) ∧
      e1.clone = e1 ∧ e1.clone.getType = e1.getType :=
  ⟨serialize_congr base e1 e2 h1 h2 h3 h4 h5,
    fun bytes blank e h => deserialize_type base bytes blank e h,
    fun _ _ => serialize_congr base _ _ rfl rfl rfl rfl rfl, rfl, rfl⟩

/-- Witness of C13: the envelopes of a host and of a memory endpoint at address 5
have the same serialized form. -/
theorem serialized_form_omits_type_witness :
    (envelope KB_HOST 5).getOpcode = (envelope KB_MEM 5).getOpcode ∧
      (envelope KB_HOST 5).getSrc = (envelope KB_MEM 5).getSrc ∧
      (envelope KB_HOST 5).getType ≠ (envelope KB_MEM 5).getType ∧
      serialize [] (envelope KB_HOST 5) = serialize [] (envelope KB_MEM 5) :=
  ⟨rfl, rfl, by decide,
    (serialized_form_omits_type [] (envelope KB_HOST 5) (envelope KB_MEM 5) rfl rfl rfl rfl
      rfl).1⟩

end KrustyBus
